import Mathlib

/-! # kdbus connection core (`connection.c`)

A shallow embedding of the connection lifecycle and message-queue engine of
`connection.c`: the deadline scanner `kdbus_conn_scan_timeout`, the file
operations `kdbus_conn_open` / `kdbus_conn_release`, and the command
dispatch `kdbus_conn_ioctl` with its two handlers.

Conventions:
* `u64` values are natural numbers; arithmetic that can leave the 64-bit
  range is reduced modulo `2 ^ 64` where it is performed.
* pointers are natural-number addresses, `NULL` is `none`.
* status codes are integers, `0` for success and `-E...` for errors.
-/

namespace Kdbus

/-! ## Machine integers and status codes -/

/-- Largest `u64` value; the C expression `(u64) -1`. -/
def U64_MAX : Nat := 2 ^ 64 - 1

/-- Largest `int` value. -/
def INT_MAX : Nat := 2 ^ 31 - 1

/-- Conversion of a `u64` to `int` as done when `conn->id` is passed as the
`int start` argument of `idr_alloc`: the low 32 bits, read as two's complement. -/
def u64_to_int (x : Nat) : Int :=
  if x % 2 ^ 32 < 2 ^ 31 then (x % 2 ^ 32 : Nat) else ((x % 2 ^ 32 : Nat) : Int) - 2 ^ 32

def ENOENT : Int := 2
def ENOMEM : Int := 12
def EFAULT : Int := 14
def EBUSY : Int := 16
def EEXIST : Int := 17
def EINVAL : Int := 22
def ENOTTY : Int := 25
def ENOSPC : Int := 28
def ENOSYS : Int := 38
def ENOTSUPP : Int := 524

/-- Addresses of kernel objects. -/
abbrev Ptr := Nat

/-! ## Message envelopes and the per-connection queue -/

/-- Message envelope `struct kdbus_kmsg`: `addr` identifies the object,
`deadline` is its absolute `u64` deadline (`0` = no deadline). -/
structure kdbus_kmsg where
  addr : Ptr
  deadline : Nat
  deriving DecidableEq, Repr

/-- Queue node `struct kdbus_msg_list_entry`, owning one envelope reference. -/
structure kdbus_msg_list_entry where
  kmsg : kdbus_kmsg
  deriving DecidableEq, Repr

/-- Calls into collaborators made by the queue code, in program order. -/
inductive effect where
  | msg_send_timeout (kmsg : kdbus_kmsg)
  | kmsg_unref (kmsg : kdbus_kmsg)
  | mod_timer (deadline : Nat) (usecs : Nat)
  deriving DecidableEq, Repr

/-- State carried by the `list_for_each_entry_safe` loop of
`kdbus_conn_scan_timeout`: the list as left so far, the local `deadline`,
and the calls made. -/
structure scan_loop_result where
  msg_list : List kdbus_msg_list_entry
  deadline : Nat
  calls : List effect
  deriving DecidableEq, Repr

/-- The loop of `kdbus_conn_scan_timeout` (connection.c:39-53), started with
the local `deadline` at `dl`. -/
def scan_loop (now : Nat) : List kdbus_msg_list_entry → Nat → scan_loop_result
  | [], dl => ⟨[], dl, []⟩
  | entry :: rest, dl =>
    if entry.kmsg.deadline = 0 then
      let r := scan_loop now rest dl
      ⟨entry :: r.msg_list, r.deadline, r.calls⟩
    else if entry.kmsg.deadline ≤ now then
      let r := scan_loop now rest dl
      ⟨r.msg_list, r.deadline,
        effect.msg_send_timeout entry.kmsg :: effect.kmsg_unref entry.kmsg :: r.calls⟩
    else if entry.kmsg.deadline < dl then
      let r := scan_loop now rest entry.kmsg.deadline
      ⟨entry :: r.msg_list, r.deadline, r.calls⟩
    else
      let r := scan_loop now rest dl
      ⟨entry :: r.msg_list, r.deadline, r.calls⟩

/-- Time in nanoseconds computed from `ktime_get_ts` (connection.c:36), a `u64`. -/
def timespec_to_ns (tv_sec tv_nsec : Nat) : Nat :=
  (tv_sec * 1000000000 + tv_nsec) % 2 ^ 64

/-- Outcome of one run of `kdbus_conn_scan_timeout`. -/
structure scan_result where
  msg_list : List kdbus_msg_list_entry
  deadline : Nat
  armed : Bool
  calls : List effect
  deriving DecidableEq, Repr

/-- The scanner `kdbus_conn_scan_timeout` (connection.c:28-59) on a queue, at monotonic
time `now`. The local `deadline` starts at `(u64) -1`; the timer is
re-armed when it ends different from `(u64) -1`, with the microsecond
delay `(deadline - now) / 1000` handed to `usecs_to_jiffies`, whose
parameter is an `unsigned int`. -/
def kdbus_conn_scan_timeout (now : Nat) (msg_list : List kdbus_msg_list_entry) : scan_result :=
  let r := scan_loop now msg_list U64_MAX
  if r.deadline ≠ U64_MAX then
    ⟨r.msg_list, r.deadline, true,
      r.calls ++ [effect.mod_timer r.deadline (((r.deadline - now) / 1000) % 2 ^ 32)]⟩
  else
    ⟨r.msg_list, r.deadline, false, r.calls⟩

/-- Entries the scanner keeps: no deadline, or a deadline still ahead. -/
def survives (now : Nat) (entry : kdbus_msg_list_entry) : Bool :=
  entry.kmsg.deadline = 0 || now < entry.kmsg.deadline

/-! ## The kernel idr (`linux/idr.h`), by its documented contract -/

/-- An idr: the ids in use, each with the pointer stored under it. -/
abbrev idr := List (Nat × Ptr)

/-- Lookup `idr_find`: the pointer stored under `id`, `NULL` if there is none. -/
def idr_find (t : idr) (id : Nat) : Option Ptr :=
  t.lookup id

/-- Removal `idr_remove`: drops `id` from the idr. -/
def idr_remove (t : idr) (id : Nat) : idr :=
  t.filter (fun kv => kv.1 ≠ id)

/-- Search for the smallest unused id at or above `start`, trying `fuel`
candidates; `idr_alloc` calls it with more candidates than the idr has
entries. -/
def idr_get_empty_slot (t : idr) : Nat → Nat → Option Nat
  | _, 0 => none
  | start, fuel + 1 =>
    if start ∈ t.map Prod.fst then idr_get_empty_slot t (start + 1) fuel else some start

/-- Allocation `idr_alloc(idr, ptr, start, 0, GFP_KERNEL)`: stores `ptr` under the smallest
unused id in `[start, INT_MAX]` and returns that id; returns `-EINVAL`
for a negative `start`, `-ENOMEM` when memory for the tree cannot be had
(`mem_ok = false`) and `-ENOSPC` when the range has no unused id. -/
def idr_alloc (t : idr) (ptr : Ptr) (start : Int) (mem_ok : Bool) : Int × idr :=
  if start < 0 then (-EINVAL, t)
  else if !mem_ok then (-ENOMEM, t)
  else
    match idr_get_empty_slot t start.toNat (t.length + 1) with
    | none => (-ENOSPC, t)
    | some id => if INT_MAX < id then (-ENOSPC, t) else ((id : Int), (id, ptr) :: t)

/-! ## Namespaces, buses, endpoints, connections -/

/-- Bus `struct kdbus_bus`: reference count, the next-id counter (`u64`) and the id table. -/
structure kdbus_bus where
  kref : Int
  disconnected : Bool
  conn_id_next : Nat
  conn_idr : idr

/-- Endpoint `struct kdbus_ep`: reference count, its bus, and the list of member connections. -/
structure kdbus_ep where
  kref : Int
  disconnected : Bool
  bus : Ptr
  connection_list : List Ptr

/-- Namespace `struct kdbus_ns`: reference count and the idr from minor numbers to endpoints. -/
structure kdbus_ns where
  kref : Int
  disconnected : Bool
  idr : idr

/-- Modelled from the spec: `enum kdbus_conn_type` of `kdbus_internal.h`, which
is not among the sources. The four variants named by the spec, and
`UNDEFINED` for the zeroed memory `kzalloc` returns and for the `default`
arms of the switches over the type. -/
inductive kdbus_conn_type where
  | UNDEFINED
  | CONTROL
  | NS_OWNER
  | BUS_OWNER
  | EP
  deriving DecidableEq, Repr

/-- Connection `struct kdbus_conn`, the fields `connection.c` reads or writes. The timer,
the work item, the locks and the name lists carry no data the functions
below branch on and are not represented. -/
structure kdbus_conn where
  type : kdbus_conn_type
  ns : Option Ptr
  ep : Option Ptr
  bus_owner : Option Ptr
  ns_owner : Option Ptr
  id : Nat
  active : Bool
  starter : Bool
  msg_list : List kdbus_msg_list_entry
  deriving DecidableEq, Repr

/-- A connection as `kzalloc` returns it: all fields zero. -/
def conn_zero : kdbus_conn :=
  ⟨kdbus_conn_type.UNDEFINED, none, none, none, none, 0, false, false, []⟩

/-- The objects `connection.c` works on: the global idr from major numbers to
namespaces, and the memory holding namespaces, endpoints, buses and
connections. A connection address holds `none` while no connection is
allocated there. -/
structure State where
  kdbus_ns_major_idr : idr
  ns : Ptr → kdbus_ns
  ep : Ptr → kdbus_ep
  bus : Ptr → kdbus_bus
  conn : Ptr → Option kdbus_conn

/-- Modelled from the spec: `kdbus_ns_ref`, an acquire on the reference-counted namespace. -/
def kdbus_ns_ref (s : State) (ns : Ptr) : State :=
  { s with ns := Function.update s.ns ns { s.ns ns with kref := (s.ns ns).kref + 1 } }

/-- Modelled from the spec: `kdbus_ns_unref`, a release on the reference-counted namespace. -/
def kdbus_ns_unref (s : State) (ns : Ptr) : State :=
  { s with ns := Function.update s.ns ns { s.ns ns with kref := (s.ns ns).kref - 1 } }

/-- Modelled from the spec: `kdbus_ep_ref`, an acquire on the reference-counted endpoint. -/
def kdbus_ep_ref (s : State) (ep : Ptr) : State :=
  { s with ep := Function.update s.ep ep { s.ep ep with kref := (s.ep ep).kref + 1 } }

/-- Modelled from the spec: `kdbus_ep_unref`, a release on the reference-counted endpoint. -/
def kdbus_ep_unref (s : State) (ep : Ptr) : State :=
  { s with ep := Function.update s.ep ep { s.ep ep with kref := (s.ep ep).kref - 1 } }

/-- Modelled from the spec: `kdbus_bus_unref`, a release on the reference-counted bus. -/
def kdbus_bus_unref (s : State) (bus : Ptr) : State :=
  { s with bus := Function.update s.bus bus { s.bus bus with kref := (s.bus bus).kref - 1 } }

/-- Modelled from the spec: `kdbus_bus_disconnect`, which marks the owned bus disconnected. -/
def kdbus_bus_disconnect (s : State) (bus : Ptr) : State :=
  { s with bus := Function.update s.bus bus { s.bus bus with disconnected := true } }

/-- Stores a bus object at an address. -/
def set_bus (s : State) (p : Ptr) (b : kdbus_bus) : State :=
  { s with bus := Function.update s.bus p b }

/-- Stores an endpoint object at an address. -/
def set_ep (s : State) (p : Ptr) (e : kdbus_ep) : State :=
  { s with ep := Function.update s.ep p e }

/-- Stores a connection object at an address (`none` frees it, as `kfree` does). -/
def set_conn (s : State) (p : Ptr) (c : Option kdbus_conn) : State :=
  { s with conn := Function.update s.conn p c }

/-- What the kernel allocators answer during one `kdbus_conn_open`: the result
of `kzalloc` (`none` for `NULL`, otherwise the address of the new object) and
whether `idr_alloc` gets the memory it asks for. -/
structure open_env where
  kzalloc : Option Ptr
  idr_mem_ok : Bool
  deriving DecidableEq, Repr

/-- Result of `kdbus_conn_open`: the status, `file->private_data`, and the state left. -/
structure open_result where
  ret : Int
  private_data : Option Ptr
  state : State

/-- The second half of `kdbus_conn_open` (connection.c:108-160), entered with the
namespace `nsp` referenced: the endpoint lookup, the id allocation and
the registration of connection `conn`. -/
def kdbus_conn_open_ep (s : State) (env : open_env) (conn nsp minor : Nat) : open_result :=
  match idr_find (s.ns nsp).idr minor with
  | none => ⟨-ENOENT, some conn, set_conn s conn none⟩
  | some epp =>
    if (s.ep epp).disconnected then ⟨-ENOENT, some conn, set_conn s conn none⟩
    else
      let s := kdbus_ep_ref s epp
      let busp := (s.ep epp).bus
      let id := (s.bus busp).conn_id_next
      let s := set_bus s busp { s.bus busp with conn_id_next := (id + 1) % 2 ^ 64 }
      let a := idr_alloc (s.bus busp).conn_idr conn (u64_to_int id) env.idr_mem_ok
      let s := set_bus s busp { s.bus busp with conn_idr := a.2 }
      if 0 ≤ a.1 ∧ (id : Int) ≠ a.1 then
        let s := set_bus s busp
          { s.bus busp with conn_idr := idr_remove (s.bus busp).conn_idr a.1.toNat }
        ⟨-EEXIST, some conn, set_conn s conn none⟩
      else
        let s := set_ep s epp
          { s.ep epp with connection_list := (s.ep epp).connection_list ++ [conn] }
        ⟨0, some conn,
          set_conn s conn (some { conn_zero with
            type := kdbus_conn_type.EP, ns := some nsp, ep := some epp, id := id })⟩

/-- The file operation `kdbus_conn_open` (connection.c:75-161) on the device `major:minor`. -/
def kdbus_conn_open (s : State) (env : open_env) (major minor : Nat) : open_result :=
  match env.kzalloc with
  | none => ⟨-ENOMEM, none, s⟩
  | some conn =>
    match idr_find s.kdbus_ns_major_idr major with
    | none => ⟨-ENOENT, none, set_conn s conn none⟩
    | some nsp =>
      if (s.ns nsp).disconnected then ⟨-ENOENT, none, set_conn s conn none⟩
      else
        let s := kdbus_ns_ref s nsp
        if minor = 0 then
          ⟨0, some conn,
            set_conn s conn (some { conn_zero with
              type := kdbus_conn_type.CONTROL, ns := some nsp })⟩
        else kdbus_conn_open_ep s env conn nsp minor

/-- The draining loop of `kdbus_conn_release` (connection.c:188-192): the list left and the
calls made. -/
def release_loop : List kdbus_msg_list_entry → List kdbus_msg_list_entry × List effect
  | [] => ([], [])
  | entry :: rest =>
    let r := release_loop rest
    (r.1, effect.kmsg_unref entry.kmsg :: r.2)

/-- Result of `kdbus_conn_release`: the status, the state left, the envelope
calls made, and the connection's queue at the moment its memory is freed. -/
structure release_result where
  ret : Int
  state : State
  calls : List effect
  msg_list : List kdbus_msg_list_entry

/-- The file operation `kdbus_conn_release` (connection.c:163-207) on the connection at
address `conn`. The result is `none` when the function dereferences a
pointer that is `NULL` or holds no connection. The intrusive node
`connection_entry` sits in the endpoint list at most once; `list_del`
takes it out. `kdbus_name_remove_by_conn` acts on the name registry, which
is outside this file. -/
def kdbus_conn_release (s : State) (conn : Ptr) : Option release_result :=
  match s.conn conn with
  | none => none
  | some c =>
    let switched : Option (State × List kdbus_msg_list_entry × List effect) :=
      match c.type with
      | kdbus_conn_type.NS_OWNER => some (s, c.msg_list, [])
      | kdbus_conn_type.BUS_OWNER =>
        match c.bus_owner with
        | none => none
        | some b => some (kdbus_bus_unref (kdbus_bus_disconnect s b) b, c.msg_list, [])
      | kdbus_conn_type.EP =>
        match c.ep with
        | none => none
        | some e =>
          let s := kdbus_ep_unref s e
          let s := set_ep s e
            { s.ep e with
              connection_list := (s.ep e).connection_list.filter (fun p => p ≠ conn) }
          let r := release_loop c.msg_list
          some (s, r.1, r.2)
      | _ => some (s, c.msg_list, [])
    match switched, c.ns with
    | some (s, q, calls), some nsp =>
      some ⟨0, set_conn (kdbus_ns_unref s nsp) conn none, calls, q⟩
    | _, _ => none

/-! ## Commands -/

/-- Modelled from the spec: the command codes `KDBUS_CMD_*` of `kdbus.h`, which is not
among the sources: fixed, pairwise different numeric codes, one per
`case` label of the two handlers; `unknown` stands for every other value
of `cmd`. -/
inductive kdbus_cmd where
  | BUS_MAKE
  | NS_MAKE
  | BUS_POLICY_SET
  | EP_MAKE
  | HELLO
  | EP_POLICY_SET
  | NAME_ACQUIRE
  | NAME_RELEASE
  | NAME_LIST
  | NAME_QUERY
  | MATCH_ADD
  | MATCH_REMOVE
  | MONITOR
  | MSG_SEND
  | MSG_RECV
  | unknown (code : Nat)
  deriving DecidableEq, Repr

/-- Payload `struct kdbus_cmd_fname`, the fields the handlers read. -/
structure kdbus_cmd_fname where
  kernel_flags : Nat
  bus_flags : Nat
  mode : Nat
  name : String
  deriving DecidableEq, Repr

/-- Payload `struct kdbus_cmd_hello`, the fields the handlers read or write. -/
structure kdbus_cmd_hello where
  kernel_flags : Nat
  id : Nat
  deriving DecidableEq, Repr

/-- The user memory `argp` points to: what `copy_from_user` reads there as
either payload type (`none` when the read faults), and how many bytes a
`copy_to_user` to it leaves uncopied (`0` when the memory can be written). -/
structure user_mem where
  fname : Option kdbus_cmd_fname
  hello : Option kdbus_cmd_hello
  uncopied : Nat
  deriving DecidableEq, Repr

/-- Kernel `copy_to_user` of a hello payload: returns the number of bytes that could
not be copied, never a negative value, and the memory as left. A copy that
faults is taken to leave the memory as it was. -/
def copy_to_user (argp : user_mem) (hello : kdbus_cmd_hello) : Nat × user_mem :=
  if argp.uncopied = 0 then (0, { argp with hello := some hello }) else (argp.uncopied, argp)

/-- Constants of `kdbus.h` the handlers use. -/
structure kdbus_h where
  KDBUS_CMD_HELLO_STARTER : Nat

/-- Modelled from the spec: what the collaborators outside `connection.c` answer when a
command calls them: their status, the object the two constructors hand
back through their last argument, and, for message send and receive, the
calling connection's queue afterwards. They reach the connection through
its queue and name linkage only. -/
structure ext_calls where
  kdbus_bus_new : Int × Option Ptr
  kdbus_ns_new : Int × Option Ptr
  kdbus_ep_new : Int
  kdbus_name_acquire : Int
  kdbus_name_release : Int
  kdbus_name_list : Int
  kdbus_name_query : Int
  kdbus_kmsg_new_from_user : Int
  kdbus_kmsg_send : Int × List kdbus_msg_list_entry
  kdbus_kmsg_recv : Int × List kdbus_msg_list_entry

/-- Result of a command: the status, the connection as left, the user memory as left. -/
structure ioctl_result (C : Type) where
  ret : Int
  conn : C
  argp : user_mem

/-- The flag check `check_flags` (connection.c:209-215). -/
def check_flags (kernel_flags : Nat) : Bool :=
  kernel_flags ≤ 0xFFFFFFFF

/-- The control handler `kdbus_conn_ioctl_control` (connection.c:218-274). -/
def kdbus_conn_ioctl_control (x : ext_calls) (conn : kdbus_conn) (cmd : kdbus_cmd)
    (argp : user_mem) : ioctl_result kdbus_conn :=
  match cmd with
  | kdbus_cmd.BUS_MAKE =>
    match argp.fname with
    | none => ⟨-EFAULT, conn, argp⟩
    | some fname =>
      if !check_flags fname.kernel_flags then ⟨-ENOTSUPP, conn, argp⟩
      else if x.kdbus_bus_new.1 < 0 then ⟨x.kdbus_bus_new.1, conn, argp⟩
      else
        ⟨0, { conn with type := kdbus_conn_type.BUS_OWNER, bus_owner := x.kdbus_bus_new.2 }, argp⟩
  | kdbus_cmd.NS_MAKE =>
    match argp.fname with
    | none => ⟨-EFAULT, conn, argp⟩
    | some fname =>
      if !check_flags fname.kernel_flags then ⟨-ENOTSUPP, conn, argp⟩
      else if x.kdbus_ns_new.1 < 0 then ⟨x.kdbus_ns_new.1, conn, argp⟩
      else
        ⟨0, { conn with type := kdbus_conn_type.NS_OWNER, ns_owner := x.kdbus_ns_new.2 }, argp⟩
  | kdbus_cmd.BUS_POLICY_SET => ⟨-ENOSYS, conn, argp⟩
  | _ => ⟨-ENOTTY, conn, argp⟩

/-- The endpoint handler `kdbus_conn_ioctl_ep` (connection.c:277-381); `private_data` is
`file->private_data`, `none` for `NULL`. -/
def kdbus_conn_ioctl_ep (h : kdbus_h) (x : ext_calls) (private_data : Option kdbus_conn)
    (cmd : kdbus_cmd) (argp : user_mem) : ioctl_result (Option kdbus_conn) :=
  match private_data with
  | none => ⟨-EINVAL, none, argp⟩
  | some conn =>
    match cmd with
    | kdbus_cmd.EP_MAKE =>
      match argp.fname with
      | none => ⟨-EFAULT, some conn, argp⟩
      | some fname =>
        if !check_flags fname.kernel_flags then ⟨-ENOTSUPP, some conn, argp⟩
        else ⟨x.kdbus_ep_new, some conn, argp⟩
    | kdbus_cmd.HELLO =>
      if conn.active then ⟨-EBUSY, some conn, argp⟩
      else
        match argp.hello with
        | none => ⟨-EFAULT, some conn, argp⟩
        | some hello =>
          if !check_flags hello.kernel_flags then ⟨-ENOTSUPP, some conn, argp⟩
          else
            let hello := { hello with id := conn.id }
            let w := copy_to_user argp hello
            if w.1 < 0 then ⟨-EFAULT, some conn, w.2⟩
            else
              ⟨0, some { conn with
                    active := true,
                    starter := decide (hello.kernel_flags &&& h.KDBUS_CMD_HELLO_STARTER ≠ 0) },
                w.2⟩
    | kdbus_cmd.EP_POLICY_SET => ⟨-ENOSYS, some conn, argp⟩
    | kdbus_cmd.NAME_ACQUIRE => ⟨x.kdbus_name_acquire, some conn, argp⟩
    | kdbus_cmd.NAME_RELEASE => ⟨x.kdbus_name_release, some conn, argp⟩
    | kdbus_cmd.NAME_LIST => ⟨x.kdbus_name_list, some conn, argp⟩
    | kdbus_cmd.NAME_QUERY => ⟨x.kdbus_name_query, some conn, argp⟩
    | kdbus_cmd.MATCH_ADD => ⟨-ENOSYS, some conn, argp⟩
    | kdbus_cmd.MATCH_REMOVE => ⟨-ENOSYS, some conn, argp⟩
    | kdbus_cmd.MONITOR => ⟨-ENOSYS, some conn, argp⟩
    | kdbus_cmd.MSG_SEND =>
      if x.kdbus_kmsg_new_from_user < 0 then ⟨x.kdbus_kmsg_new_from_user, some conn, argp⟩
      else ⟨x.kdbus_kmsg_send.1, some { conn with msg_list := x.kdbus_kmsg_send.2 }, argp⟩
    | kdbus_cmd.MSG_RECV =>
      ⟨x.kdbus_kmsg_recv.1, some { conn with msg_list := x.kdbus_kmsg_recv.2 }, argp⟩
    | _ => ⟨-ENOTTY, some conn, argp⟩

/-- The dispatcher `kdbus_conn_ioctl` (connection.c:383-401) on the connection `file->private_data`
points to. -/
def kdbus_conn_ioctl (h : kdbus_h) (x : ext_calls) (conn : kdbus_conn) (cmd : kdbus_cmd)
    (argp : user_mem) : ioctl_result kdbus_conn :=
  match conn.type with
  | kdbus_conn_type.CONTROL => kdbus_conn_ioctl_control x conn cmd argp
  | kdbus_conn_type.EP =>
    let r := kdbus_conn_ioctl_ep h x (some conn) cmd argp
    ⟨r.ret, r.conn.getD conn, r.argp⟩
  | _ => ⟨-EINVAL, conn, argp⟩

/-- One command issued by user space: the code, the user memory behind `argp`,
and the answers of the collaborators during the call. -/
structure ioctl_call where
  cmd : kdbus_cmd
  argp : user_mem
  x : ext_calls

/-- The connection after a sequence of commands, issued one after the other. -/
def run_ioctls (h : kdbus_h) (conn : kdbus_conn) : List ioctl_call → kdbus_conn
  | [] => conn
  | c :: rest => run_ioctls h (kdbus_conn_ioctl h c.x conn c.cmd c.argp).conn rest

/-! ## Sequences of opens and closes -/

/-- A file operation on a kdbus device node. -/
inductive file_op where
  | dev_open (env : open_env) (major minor : Nat)
  | dev_release (conn : Ptr)

/-- The state after one file operation. An open whose `kzalloc` answer names an
address that already holds a connection, and a release of an address
that holds no connection, cannot happen and leave the state as it is. -/
def step (s : State) : file_op → State
  | file_op.dev_open env major minor =>
    match env.kzalloc with
    | none => (kdbus_conn_open s env major minor).state
    | some p => if (s.conn p).isSome then s else (kdbus_conn_open s env major minor).state
  | file_op.dev_release conn =>
    match kdbus_conn_release s conn with
    | none => s
    | some r => r.state

/-- The state after a sequence of file operations. -/
def run (s : State) : List file_op → State
  | [] => s
  | op :: rest => run (step s op) rest

/-- An initial state: no connection allocated, every id table empty. -/
def initial (s : State) : Prop :=
  (∀ p, s.conn p = none) ∧ ∀ b, (s.bus b).conn_idr = []

/-- The endpoint connections of bus `b`: object at `p` is an endpoint connection whose
endpoint belongs to `b`. -/
def ep_conn_on (s : State) (b p : Ptr) (c : kdbus_conn) : Prop :=
  s.conn p = some c ∧ c.type = kdbus_conn_type.EP ∧ ∃ e, c.ep = some e ∧ (s.ep e).bus = b

/-- The commands `kdbus_conn_ioctl_control` has a `case` for. -/
def control_cmd : kdbus_cmd → Bool
  | kdbus_cmd.BUS_MAKE => true
  | kdbus_cmd.NS_MAKE => true
  | kdbus_cmd.BUS_POLICY_SET => true
  | _ => false

/-- The commands `kdbus_conn_ioctl_ep` has a `case` for. -/
def ep_cmd : kdbus_cmd → Bool
  | kdbus_cmd.EP_MAKE => true
  | kdbus_cmd.HELLO => true
  | kdbus_cmd.EP_POLICY_SET => true
  | kdbus_cmd.NAME_ACQUIRE => true
  | kdbus_cmd.NAME_RELEASE => true
  | kdbus_cmd.NAME_LIST => true
  | kdbus_cmd.NAME_QUERY => true
  | kdbus_cmd.MATCH_ADD => true
  | kdbus_cmd.MATCH_REMOVE => true
  | kdbus_cmd.MONITOR => true
  | kdbus_cmd.MSG_SEND => true
  | kdbus_cmd.MSG_RECV => true
  | _ => false

/-! ## Sample inputs -/

/-- Header constants with the starter flag at bit 0. -/
def sample_h : kdbus_h := ⟨1⟩

/-- Collaborators that all report success and leave the queue empty. -/
def ext_ok : ext_calls := ⟨(0, some 1), (0, some 1), 0, 0, 0, 0, 0, 0, (0, []), (0, [])⟩

/-- A connection of the given type and activation, with id 5 and an empty queue. -/
def sample_conn (t : kdbus_conn_type) (active : Bool) : kdbus_conn :=
  ⟨t, some 0, if t = kdbus_conn_type.EP then some 0 else none, none, none, 5, active, false, []⟩

/-- User memory holding a payload with the given flags. -/
def sample_argp (flags uncopied : Nat) : user_mem :=
  ⟨some ⟨flags, 0, 0, ""⟩, some ⟨flags, 0⟩, uncopied⟩

/-- A state with one namespace at major 1, whose minor 1 is an endpoint of one bus
with the given next-id counter and id table; no connection is open. -/
def sample_state (ns_disconnected : Bool) (conn_id_next : Nat) (conn_idr : idr) : State :=
  { kdbus_ns_major_idr := [(1, 0)]
    ns := fun _ => ⟨1, ns_disconnected, [(1, 0)]⟩
    ep := fun _ => ⟨1, false, 0, []⟩
    bus := fun _ => ⟨1, false, conn_id_next, conn_idr⟩
    conn := fun _ => none }

/-- Every endpoint connection has an endpoint and an id below the next-id counter
of that endpoint's bus. -/
def ids_below_counter (s : State) : Prop :=
  ∀ p c, s.conn p = some c → c.type = kdbus_conn_type.EP →
    ∃ e, c.ep = some e ∧ c.id < (s.bus (s.ep e).bus).conn_id_next

/-- Two different endpoint connections of one bus have different ids. -/
def ids_unique (s : State) : Prop :=
  ∀ b p q c d, ep_conn_on s b p c → ep_conn_on s b q d → p ≠ q → c.id ≠ d.id

/-- A list of file operations repeated `n` times. -/
def repeat_ops : Nat → List file_op → List file_op
  | 0, _ => []
  | n + 1, ops => ops ++ repeat_ops n ops

/-- One open of the endpoint device 1:1 into address 8, closed again if it succeeded. -/
def wrap_round : List file_op :=
  [file_op.dev_open ⟨some 8, true⟩ 1 1, file_op.dev_release 8]

/-- An open of the endpoint device 1:1 into address 7, then `2 ^ 64 - 1` rounds of
open and close at address 8, then one more open into address 8. -/
def wrap_ops : List file_op :=
  file_op.dev_open ⟨some 7, true⟩ 1 1
    :: (repeat_ops (2 ^ 64 - 1) wrap_round ++ [file_op.dev_open ⟨some 8, true⟩ 1 1])

/-- The states the rounds of `wrap_ops` pass through: the devices of `sample_state`,
the counter at `k` modulo `2 ^ 64`, the connection with id `2 ^ 31` open at
address 7, address 8 free. -/
def wrap_inv (s : State) (k : Nat) : Prop :=
  s.kdbus_ns_major_idr = [(1, 0)] ∧ (s.ns 0).disconnected = false ∧ (s.ns 0).idr = [(1, 0)]
    ∧ (s.ep 0).disconnected = false ∧ (s.ep 0).bus = 0
    ∧ (s.bus 0).conn_id_next = k % 2 ^ 64
    ∧ s.conn 7 = some ⟨kdbus_conn_type.EP, some 0, some 0, none, none, 2 ^ 31, false, false, []⟩
    ∧ s.conn 8 = none

/-- The state `sample_state false 6 [(5, 7)]` with the endpoint connection of id 5 open at
address 7, its queue holding `q`. -/
def sample_open_state (q : List kdbus_msg_list_entry) : State :=
  { kdbus_ns_major_idr := [(1, 0)]
    ns := fun _ => ⟨2, false, [(1, 0)]⟩
    ep := fun _ => ⟨2, false, 0, [7]⟩
    bus := fun _ => ⟨1, false, 6, [(5, 7)]⟩
    conn := fun p =>
      if p = 7 then some ⟨kdbus_conn_type.EP, some 0, some 0, none, none, 5, false, false, q⟩
      else none }

/-- Poll bit `POLLIN` of `asm-generic/poll.h`: data to read. -/
def POLLIN : Nat := 0x0001

/-- Poll bit `POLLOUT`: writing possible. -/
def POLLOUT : Nat := 0x0004

/-- Poll bit `POLLERR`: error condition. -/
def POLLERR : Nat := 0x0008

/-- Poll bit `POLLHUP`: hang-up. -/
def POLLHUP : Nat := 0x0010

/-- Poll bit `POLLRDNORM`: normal data to read. -/
def POLLRDNORM : Nat := 0x0040

/-- Poll bit `POLLWRNORM`: normal data can be written. -/
def POLLWRNORM : Nat := 0x0100

/-- The file operation `kdbus_conn_poll` (connection.c:403-421): the mask it returns. The call
`poll_wait` registers the caller on the endpoint's wait queue and does not
enter the mask. -/
def kdbus_conn_poll (conn : kdbus_conn) : Nat :=
  if conn.type ≠ kdbus_conn_type.EP then POLLERR ||| POLLHUP
  else
    let mask := 0
    if conn.msg_list ≠ [] then mask ||| (POLLIN ||| POLLRDNORM) else mask

/-! ## Predicates on connections and collaborators -/

/-- The owner references of a connection agree with its type: `ep`, `bus_owner`,
`ns_owner` are non-null exactly for an endpoint, a bus owner, a namespace
owner. -/
def refs_match_type (c : kdbus_conn) : Prop :=
  (c.ep ≠ none ↔ c.type = kdbus_conn_type.EP)
    ∧ (c.bus_owner ≠ none ↔ c.type = kdbus_conn_type.BUS_OWNER)
    ∧ (c.ns_owner ≠ none ↔ c.type = kdbus_conn_type.NS_OWNER)

/-- The constructors `kdbus_bus_new` and `kdbus_ns_new` hand back a non-null object
whenever they report success. -/
def constructors_ok (x : ext_calls) : Prop :=
  (0 ≤ x.kdbus_bus_new.1 → x.kdbus_bus_new.2 ≠ none)
    ∧ (0 ≤ x.kdbus_ns_new.1 → x.kdbus_ns_new.2 ≠ none)

/-- The calls the scanner makes for one expired entry: the timeout notification, then
the release of the envelope reference. -/
def expiry_calls (entry : kdbus_msg_list_entry) : List effect :=
  [effect.msg_send_timeout entry.kmsg, effect.kmsg_unref entry.kmsg]

/-- Calls that notify of a timeout or release an envelope reference. -/
def envelope_call : effect → Bool
  | effect.msg_send_timeout _ => true
  | effect.kmsg_unref _ => true
  | effect.mod_timer _ _ => false

/-! ## The deadline scanner -/

theorem scan_loop_msg_list (now : Nat) (q : List kdbus_msg_list_entry) (dl : Nat) :
    (scan_loop now q dl).msg_list = q.filter (survives now) := by
  induction q generalizing dl with
  | nil => rfl
  | cons entry rest ih =>
    unfold scan_loop
    by_cases h0 : entry.kmsg.deadline = 0
    · simp [h0, ih, survives]
    · by_cases h1 : entry.kmsg.deadline ≤ now
      · simp [h0, h1, ih, survives, Nat.not_lt.mpr h1]
      · have h2 : now < entry.kmsg.deadline := Nat.lt_of_not_le h1
        by_cases h3 : entry.kmsg.deadline < dl
        · simp [h0, h1, h3, ih, survives, h2]
        · simp [h0, h1, h3, ih, survives, h2]

theorem scan_timeout_msg_list (now : Nat) (q : List kdbus_msg_list_entry) :
    (kdbus_conn_scan_timeout now q).msg_list = q.filter (survives now) := by
  unfold kdbus_conn_scan_timeout
  by_cases h : (scan_loop now q U64_MAX).deadline = U64_MAX
  · simp [h, scan_loop_msg_list]
  · simp [h, scan_loop_msg_list]

/-- C1: the queue left by `kdbus_conn_scan_timeout` is the sub-sequence of the original
queue, in order, of the entries whose deadline is 0 or greater than `now`;
every entry with a non-zero deadline at or before `now` is gone, every
entry with deadline 0 stays. -/
theorem scan_timeout_queue (now : Nat) (q : List kdbus_msg_list_entry) :
    (kdbus_conn_scan_timeout now q).msg_list
        = q.filter (fun entry => entry.kmsg.deadline = 0 || now < entry.kmsg.deadline)
      ∧ (kdbus_conn_scan_timeout now q).msg_list.Sublist q
      ∧ (∀ entry ∈ q, entry.kmsg.deadline ≠ 0 → entry.kmsg.deadline ≤ now →
          entry ∉ (kdbus_conn_scan_timeout now q).msg_list)
      ∧ (∀ entry ∈ q, entry.kmsg.deadline = 0 →
          entry ∈ (kdbus_conn_scan_timeout now q).msg_list) := by
  have h := scan_timeout_msg_list now q
  refine ⟨h, ?_, ?_, ?_⟩
  · rw [h]; exact List.filter_sublist q
  · intro entry _ h0 h1
    rw [h]
    simp [List.mem_filter, survives, h0, Nat.not_lt.mpr h1]
  · intro entry hm h0
    rw [h]
    simp [List.mem_filter, survives, h0, hm]

theorem scan_loop_deadline_le (now : Nat) (q : List kdbus_msg_list_entry) (dl : Nat) :
    (scan_loop now q dl).deadline ≤ dl := by
  induction q generalizing dl with
  | nil => exact Nat.le_refl _
  | cons entry rest ih =>
    unfold scan_loop
    split
    · exact ih dl
    · split
      · exact ih dl
      · split
        · exact Nat.le_trans (ih _) (Nat.le_of_lt (by assumption))
        · exact ih dl

theorem scan_loop_deadline_mem (now : Nat) (q : List kdbus_msg_list_entry) (dl : Nat) :
    (scan_loop now q dl).deadline = dl ∨
      ∃ entry ∈ (scan_loop now q dl).msg_list,
        entry.kmsg.deadline ≠ 0 ∧ entry.kmsg.deadline = (scan_loop now q dl).deadline := by
  induction q generalizing dl with
  | nil => exact Or.inl rfl
  | cons entry rest ih =>
    unfold scan_loop
    split
    · rcases ih dl with h | ⟨e, he, h0, h1⟩
      · exact Or.inl h
      · exact Or.inr ⟨e, List.mem_cons_of_mem _ he, h0, h1⟩
    · split
      · exact ih dl
      · split
        · rcases ih entry.kmsg.deadline with h | ⟨e, he, h0, h1⟩
          · exact Or.inr ⟨entry, List.mem_cons_self _ _, by assumption, h.symm⟩
          · exact Or.inr ⟨e, List.mem_cons_of_mem _ he, h0, h1⟩
        · rcases ih dl with h | ⟨e, he, h0, h1⟩
          · exact Or.inl h
          · exact Or.inr ⟨e, List.mem_cons_of_mem _ he, h0, h1⟩

theorem scan_loop_deadline_min (now : Nat) (q : List kdbus_msg_list_entry) (dl : Nat) :
    ∀ entry ∈ (scan_loop now q dl).msg_list, entry.kmsg.deadline ≠ 0 →
      (scan_loop now q dl).deadline ≤ entry.kmsg.deadline := by
  induction q generalizing dl with
  | nil => intro e he; cases he
  | cons entry rest ih =>
    unfold scan_loop
    split
    · intro e he h0
      rcases List.mem_cons.mp he with rfl | he
      · contradiction
      · exact ih dl e he h0
    · split
      · exact ih dl
      · split
        · intro e he h0
          rcases List.mem_cons.mp he with rfl | he
          · exact scan_loop_deadline_le now rest _
          · exact ih _ e he h0
        · intro e he h0
          rcases List.mem_cons.mp he with rfl | he
          · exact Nat.le_trans (scan_loop_deadline_le now rest dl)
              (Nat.le_of_not_lt (by assumption))
          · exact ih dl e he h0

/-- C2 (amended): the scanner re-arms the timer exactly when an entry that survives the
scan carries a deadline below the largest 64-bit value (non-zero, after
`now`, not `(u64) -1`), and then the wake time is the smallest deadline
among the surviving entries that carry one; otherwise the timer is not
armed. -/
theorem scan_timeout_timer (now : Nat) (q : List kdbus_msg_list_entry) :
    ((kdbus_conn_scan_timeout now q).armed = true ↔
        ∃ entry ∈ (kdbus_conn_scan_timeout now q).msg_list,
          entry.kmsg.deadline ≠ 0 ∧ now < entry.kmsg.deadline
            ∧ entry.kmsg.deadline < 2 ^ 64 - 1)
      ∧ ((kdbus_conn_scan_timeout now q).armed = true →
          (∃ entry ∈ (kdbus_conn_scan_timeout now q).msg_list,
            entry.kmsg.deadline ≠ 0 ∧
              entry.kmsg.deadline = (kdbus_conn_scan_timeout now q).deadline)
          ∧ ∀ entry ∈ (kdbus_conn_scan_timeout now q).msg_list, entry.kmsg.deadline ≠ 0 →
              (kdbus_conn_scan_timeout now q).deadline ≤ entry.kmsg.deadline) := by
  have hle := scan_loop_deadline_le now q U64_MAX
  have hmem := scan_loop_deadline_mem now q U64_MAX
  have hmin := scan_loop_deadline_min now q U64_MAX
  have hnow : ∀ entry ∈ (scan_loop now q U64_MAX).msg_list, entry.kmsg.deadline ≠ 0 →
      now < entry.kmsg.deadline := by
    intro entry he h0
    rw [scan_loop_msg_list, List.mem_filter] at he
    simpa [survives, h0] using he.2
  have hmax : U64_MAX = 2 ^ 64 - 1 := rfl
  unfold kdbus_conn_scan_timeout
  by_cases h : (scan_loop now q U64_MAX).deadline = U64_MAX
  · simp only [h, ne_eq, not_true_eq_false, ↓reduceIte, Bool.false_eq_true, false_iff,
      false_implies, and_true]
    rintro ⟨e, he, h0, _, h1⟩
    have := hmin e he h0
    omega
  · have hlt : (scan_loop now q U64_MAX).deadline < U64_MAX := Nat.lt_of_le_of_ne hle h
    rcases hmem with h' | ⟨e, he, h0, h1⟩
    · exact absurd h' h
    · simp only [ne_eq, h, not_false_eq_true, ↓reduceIte, true_iff, true_implies]
      exact ⟨⟨e, he, h0, hnow e he h0, by omega⟩, ⟨e, he, h0, h1⟩, hmin⟩

/-- C2 (as stated) fails: a queue holding one entry whose deadline is the largest 64-bit
value, scanned at time 0: the entry survives and carries a non-zero
64-bit deadline after `now`, and the scanner does not re-arm the timer. -/
theorem scan_timeout_max_deadline_unarmed :
    (kdbus_conn_scan_timeout 0 [⟨⟨1, 2 ^ 64 - 1⟩⟩]).msg_list = [⟨⟨1, 2 ^ 64 - 1⟩⟩]
      ∧ (∃ entry ∈ (kdbus_conn_scan_timeout 0 [⟨⟨1, 2 ^ 64 - 1⟩⟩]).msg_list,
          entry.kmsg.deadline ≠ 0 ∧ 0 < entry.kmsg.deadline ∧ entry.kmsg.deadline < 2 ^ 64)
      ∧ (kdbus_conn_scan_timeout 0 [⟨⟨1, 2 ^ 64 - 1⟩⟩]).armed = false
      ∧ (kdbus_conn_scan_timeout 0 [⟨⟨1, 2 ^ 64 - 1⟩⟩]).calls = [] := by
  refine ⟨by decide, ⟨⟨⟨1, 2 ^ 64 - 1⟩⟩, by decide, by decide, by decide, by decide⟩, ?_, ?_⟩
  · decide
  · decide

/-! ## Commands -/

theorem ioctl_keeps_active (h : kdbus_h) (x : ext_calls) (conn : kdbus_conn) (cmd : kdbus_cmd)
    (argp : user_mem) (ha : conn.active = true) :
    (kdbus_conn_ioctl h x conn cmd argp).conn.active = true := by
  unfold kdbus_conn_ioctl
  split
  · unfold kdbus_conn_ioctl_control
    cases cmd <;> simp only [ha] <;> repeat' split
    all_goals simp [ha]
  · unfold kdbus_conn_ioctl_ep
    cases cmd <;> simp only [ha] <;> repeat' split
    all_goals simp [ha]
  · exact ha

theorem ioctl_keeps_ep (h : kdbus_h) (x : ext_calls) (conn : kdbus_conn) (cmd : kdbus_cmd)
    (argp : user_mem) (ht : conn.type = kdbus_conn_type.EP) :
    (kdbus_conn_ioctl h x conn cmd argp).conn.type = kdbus_conn_type.EP := by
  unfold kdbus_conn_ioctl
  rw [ht]
  unfold kdbus_conn_ioctl_ep
  cases cmd <;> simp only <;> repeat' split
  all_goals simp [ht]

theorem run_ioctls_keeps (h : kdbus_h) (calls : List ioctl_call) (conn : kdbus_conn)
    (ht : conn.type = kdbus_conn_type.EP) (ha : conn.active = true) :
    (run_ioctls h conn calls).type = kdbus_conn_type.EP
      ∧ (run_ioctls h conn calls).active = true := by
  induction calls generalizing conn with
  | nil => exact ⟨ht, ha⟩
  | cons c rest ih =>
    exact ih _ (ioctl_keeps_ep h c.x conn c.cmd c.argp ht)
      (ioctl_keeps_active h c.x conn c.cmd c.argp ha)

theorem hello_busy (h : kdbus_h) (x : ext_calls) (conn : kdbus_conn) (argp : user_mem)
    (ht : conn.type = kdbus_conn_type.EP) (ha : conn.active = true) :
    kdbus_conn_ioctl h x conn kdbus_cmd.HELLO argp = ⟨-EBUSY, conn, argp⟩ := by
  unfold kdbus_conn_ioctl
  rw [ht]
  simp [kdbus_conn_ioctl_ep, ha]

theorem hello_success_active (h : kdbus_h) (x : ext_calls) (conn : kdbus_conn) (argp : user_mem)
    (ht : conn.type = kdbus_conn_type.EP)
    (hr : (kdbus_conn_ioctl h x conn kdbus_cmd.HELLO argp).ret = 0) :
    (kdbus_conn_ioctl h x conn kdbus_cmd.HELLO argp).conn.active = true := by
  unfold kdbus_conn_ioctl at hr ⊢
  rw [ht] at hr ⊢
  unfold kdbus_conn_ioctl_ep at hr ⊢
  simp only at hr ⊢
  repeat' split at hr
  all_goals simp_all [EBUSY, EFAULT, ENOTSUPP]

/-- C3: once a HELLO on an endpoint connection has succeeded, the connection is
active, stays active through every later sequence of commands, and every
later HELLO returns busy and leaves the connection and the user memory as
they were; no command on any connection turns `active` from true to false. -/
theorem hello_at_most_once (h : kdbus_h) (conn : kdbus_conn) (x₁ : ext_calls) (argp₁ : user_mem)
    (calls : List ioctl_call) (x₂ : ext_calls) (argp₂ : user_mem)
    (ht : conn.type = kdbus_conn_type.EP)
    (hr : (kdbus_conn_ioctl h x₁ conn kdbus_cmd.HELLO argp₁).ret = 0) :
    (kdbus_conn_ioctl h x₁ conn kdbus_cmd.HELLO argp₁).conn.active = true
      ∧ (run_ioctls h (kdbus_conn_ioctl h x₁ conn kdbus_cmd.HELLO argp₁).conn calls).active = true
      ∧ kdbus_conn_ioctl h x₂
            (run_ioctls h (kdbus_conn_ioctl h x₁ conn kdbus_cmd.HELLO argp₁).conn calls)
            kdbus_cmd.HELLO argp₂
          = ⟨-EBUSY, run_ioctls h (kdbus_conn_ioctl h x₁ conn kdbus_cmd.HELLO argp₁).conn calls,
              argp₂⟩
      ∧ ∀ (c : kdbus_conn) (x : ext_calls) (cmd : kdbus_cmd) (argp : user_mem),
          c.active = true → (kdbus_conn_ioctl h x c cmd argp).conn.active = true := by
  have h1 := hello_success_active h x₁ conn argp₁ ht hr
  have h2 := run_ioctls_keeps h calls _ (ioctl_keeps_ep h x₁ conn kdbus_cmd.HELLO argp₁ ht) h1
  exact ⟨h1, h2.2, hello_busy h x₂ _ argp₂ h2.1 h2.2,
    fun c x cmd argp ha => ioctl_keeps_active h x c cmd argp ha⟩

theorem hello_at_most_once_witness :
    (sample_conn kdbus_conn_type.EP false).type = kdbus_conn_type.EP
      ∧ (kdbus_conn_ioctl sample_h ext_ok (sample_conn kdbus_conn_type.EP false) kdbus_cmd.HELLO
          (sample_argp 1 0)).ret = 0
      ∧ (kdbus_conn_ioctl sample_h ext_ok
            (run_ioctls sample_h
              (kdbus_conn_ioctl sample_h ext_ok (sample_conn kdbus_conn_type.EP false)
                kdbus_cmd.HELLO (sample_argp 1 0)).conn
              [⟨kdbus_cmd.MSG_RECV, sample_argp 0 0, ext_ok⟩, ⟨kdbus_cmd.HELLO, sample_argp 0 0, ext_ok⟩])
            kdbus_cmd.HELLO (sample_argp 0 0)).ret = -EBUSY :=
  ⟨rfl, by decide,
    congrArg ioctl_result.ret
      (hello_at_most_once sample_h (sample_conn kdbus_conn_type.EP false) ext_ok (sample_argp 1 0)
        [⟨kdbus_cmd.MSG_RECV, sample_argp 0 0, ext_ok⟩, ⟨kdbus_cmd.HELLO, sample_argp 0 0, ext_ok⟩]
        ext_ok (sample_argp 0 0) rfl (by decide)).2.2.1⟩

theorem check_flags_upper_bit (flags : Nat) (hbit : ∃ i, 32 ≤ i ∧ flags.testBit i = true) :
    check_flags flags = false := by
  obtain ⟨i, hi, hb⟩ := hbit
  have h1 : 2 ^ i ≤ flags := Nat.testBit_implies_ge hb
  have h2 : 2 ^ 32 ≤ 2 ^ i := Nat.pow_le_pow_right (by decide) hi
  have h3 : ¬ flags ≤ 0xFFFFFFFF := by
    have : (2 : Nat) ^ 32 = 4294967296 := by norm_num
    omega
  simp [check_flags, h3]

/-- C4 (amended): for a flags value with a bit at position 32 or above set, read from a
readable payload, bus-make and namespace-make on a control connection and
endpoint-make on an endpoint connection return unsupported, and hello on
an endpoint connection returns unsupported when the connection is not
active and busy when it is. -/
theorem upper_flags_unsupported (h : kdbus_h) (x : ext_calls) (ctl ep : kdbus_conn)
    (argp : user_mem) (flags : Nat) (fname : kdbus_cmd_fname) (hello : kdbus_cmd_hello)
    (hbit : ∃ i, 32 ≤ i ∧ flags.testBit i = true)
    (hf : argp.fname = some fname) (hff : fname.kernel_flags = flags)
    (hh : argp.hello = some hello) (hhf : hello.kernel_flags = flags)
    (hc : ctl.type = kdbus_conn_type.CONTROL) (he : ep.type = kdbus_conn_type.EP) :
    (kdbus_conn_ioctl h x ctl kdbus_cmd.BUS_MAKE argp).ret = -ENOTSUPP
      ∧ (kdbus_conn_ioctl h x ctl kdbus_cmd.NS_MAKE argp).ret = -ENOTSUPP
      ∧ (kdbus_conn_ioctl h x ep kdbus_cmd.EP_MAKE argp).ret = -ENOTSUPP
      ∧ (kdbus_conn_ioctl h x ep kdbus_cmd.HELLO argp).ret
          = if ep.active then -EBUSY else -ENOTSUPP := by
  have hk := check_flags_upper_bit flags hbit
  refine ⟨?_, ?_, ?_, ?_⟩
  · simp [kdbus_conn_ioctl, hc, kdbus_conn_ioctl_control, hf, hff, hk]
  · simp [kdbus_conn_ioctl, hc, kdbus_conn_ioctl_control, hf, hff, hk]
  · simp [kdbus_conn_ioctl, he, kdbus_conn_ioctl_ep, hf, hff, hk]
  · by_cases ha : ep.active = true
    · simp [kdbus_conn_ioctl, he, kdbus_conn_ioctl_ep, ha]
    · simp [kdbus_conn_ioctl, he, kdbus_conn_ioctl_ep, ha, hh, hhf, hk]

theorem upper_flags_unsupported_witness :
    (∃ i, 32 ≤ i ∧ (2 ^ 32 + 1).testBit i = true)
      ∧ (kdbus_conn_ioctl sample_h ext_ok (sample_conn kdbus_conn_type.CONTROL false)
          kdbus_cmd.BUS_MAKE (sample_argp (2 ^ 32 + 1) 0)).ret = -ENOTSUPP
      ∧ (kdbus_conn_ioctl sample_h ext_ok (sample_conn kdbus_conn_type.EP false)
          kdbus_cmd.HELLO (sample_argp (2 ^ 32 + 1) 0)).ret = -ENOTSUPP :=
  have hb : ∃ i, 32 ≤ i ∧ (2 ^ 32 + 1).testBit i = true := ⟨32, by decide, by decide⟩
  have w := upper_flags_unsupported sample_h ext_ok (sample_conn kdbus_conn_type.CONTROL false)
    (sample_conn kdbus_conn_type.EP false) (sample_argp (2 ^ 32 + 1) 0) (2 ^ 32 + 1)
    ⟨2 ^ 32 + 1, 0, 0, ""⟩ ⟨2 ^ 32 + 1, 0⟩ hb rfl rfl rfl rfl rfl rfl
  ⟨hb, w.1, w.2.2.2⟩

/-- C4 (as stated) fails: hello on an active endpoint connection, with a readable payload
whose flags have bit 32 set, returns busy, not unsupported. -/
theorem upper_flags_hello_active_busy :
    (2 ^ 32 : Nat).testBit 32 = true
      ∧ (sample_argp (2 ^ 32) 0).hello = some ⟨2 ^ 32, 0⟩
      ∧ (kdbus_conn_ioctl sample_h ext_ok (sample_conn kdbus_conn_type.EP true)
          kdbus_cmd.HELLO (sample_argp (2 ^ 32) 0)).ret = -EBUSY
      ∧ (kdbus_conn_ioctl sample_h ext_ok (sample_conn kdbus_conn_type.EP true)
          kdbus_cmd.HELLO (sample_argp (2 ^ 32) 0)).ret ≠ -ENOTSUPP := by
  refine ⟨by decide, rfl, by decide, by decide⟩

/-- C5 (amended): on a control connection every command the control handler has no case
for, and on an endpoint connection every command the endpoint handler has
no case for, returns no-such-command, whether the code is unknown or
belongs to the other connection type; on a connection that is neither
control nor endpoint every command returns invalid-argument. -/
theorem ioctl_dispatch_errors (h : kdbus_h) (x : ext_calls) (argp : user_mem)
    (ctl ep other : kdbus_conn) (cmd₁ cmd₂ cmd₃ : kdbus_cmd)
    (hc : ctl.type = kdbus_conn_type.CONTROL) (h₁ : control_cmd cmd₁ = false)
    (he : ep.type = kdbus_conn_type.EP) (h₂ : ep_cmd cmd₂ = false)
    (ho : other.type ≠ kdbus_conn_type.CONTROL ∧ other.type ≠ kdbus_conn_type.EP) :
    kdbus_conn_ioctl h x ctl cmd₁ argp = ⟨-ENOTTY, ctl, argp⟩
      ∧ kdbus_conn_ioctl h x ep cmd₂ argp = ⟨-ENOTTY, ep, argp⟩
      ∧ kdbus_conn_ioctl h x other cmd₃ argp = ⟨-EINVAL, other, argp⟩ := by
  refine ⟨?_, ?_, ?_⟩
  · unfold kdbus_conn_ioctl
    rw [hc]
    cases cmd₁ <;> simp [control_cmd] at h₁ <;> simp [kdbus_conn_ioctl_control]
  · unfold kdbus_conn_ioctl
    rw [he]
    cases cmd₂ <;> simp [ep_cmd] at h₂ <;> simp [kdbus_conn_ioctl_ep]
  · unfold kdbus_conn_ioctl
    obtain ⟨h1, h2⟩ := ho
    split <;> first | contradiction | rfl

theorem ioctl_dispatch_errors_witness :
    control_cmd kdbus_cmd.HELLO = false ∧ ep_cmd kdbus_cmd.BUS_MAKE = false
      ∧ (kdbus_conn_ioctl sample_h ext_ok (sample_conn kdbus_conn_type.CONTROL false)
          kdbus_cmd.HELLO (sample_argp 0 0)).ret = -ENOTTY
      ∧ (kdbus_conn_ioctl sample_h ext_ok (sample_conn kdbus_conn_type.EP false)
          kdbus_cmd.BUS_MAKE (sample_argp 0 0)).ret = -ENOTTY
      ∧ (kdbus_conn_ioctl sample_h ext_ok (sample_conn kdbus_conn_type.BUS_OWNER false)
          (kdbus_cmd.unknown 0) (sample_argp 0 0)).ret = -EINVAL :=
  have w := ioctl_dispatch_errors sample_h ext_ok (sample_argp 0 0)
    (sample_conn kdbus_conn_type.CONTROL false) (sample_conn kdbus_conn_type.EP false)
    (sample_conn kdbus_conn_type.BUS_OWNER false) kdbus_cmd.HELLO kdbus_cmd.BUS_MAKE
    (kdbus_cmd.unknown 0) rfl rfl rfl rfl ⟨by decide, by decide⟩
  ⟨rfl, rfl, congrArg ioctl_result.ret w.1, congrArg ioctl_result.ret w.2.1,
    congrArg ioctl_result.ret w.2.2⟩

/-- C5 (as stated) fails: hello on a control connection and bus-make on an endpoint
connection return no-such-command, not invalid-argument, and an unknown
command code on a bus-owner connection returns invalid-argument, not
no-such-command. -/
theorem ioctl_dispatch_other_type :
    (kdbus_conn_ioctl sample_h ext_ok (sample_conn kdbus_conn_type.CONTROL false)
        kdbus_cmd.HELLO (sample_argp 0 0)).ret ≠ -EINVAL
      ∧ (kdbus_conn_ioctl sample_h ext_ok (sample_conn kdbus_conn_type.EP false)
          kdbus_cmd.BUS_MAKE (sample_argp 0 0)).ret ≠ -EINVAL
      ∧ (kdbus_conn_ioctl sample_h ext_ok (sample_conn kdbus_conn_type.BUS_OWNER false)
          (kdbus_cmd.unknown 0) (sample_argp 0 0)).ret ≠ -ENOTTY := by
  refine ⟨by decide, by decide, by decide⟩

/-- HELLO on an endpoint connection that is not active, with a readable payload whose
flags fit the low 32 bits and user memory that can be written: the command
succeeds, the caller's payload holds the connection's id, the connection
is active, `starter` tells whether the starter bit is set, and nothing
else in the connection changes. -/
theorem hello_ok_of_writable (h : kdbus_h) (x : ext_calls) (conn : kdbus_conn) (argp : user_mem)
    (hello : kdbus_cmd_hello) (ht : conn.type = kdbus_conn_type.EP) (ha : conn.active = false)
    (hh : argp.hello = some hello) (hf : hello.kernel_flags ≤ 0xFFFFFFFF)
    (hw : argp.uncopied = 0) :
    kdbus_conn_ioctl h x conn kdbus_cmd.HELLO argp
      = ⟨0, { conn with
              active := true,
              starter := decide (hello.kernel_flags &&& h.KDBUS_CMD_HELLO_STARTER ≠ 0) },
          { argp with hello := some { hello with id := conn.id } }⟩ := by
  simp [kdbus_conn_ioctl, ht, kdbus_conn_ioctl_ep, ha, hh, check_flags, hf, copy_to_user, hw]

/-- C10: HELLO on an endpoint connection that is not active, with a readable payload
whose flags are 0, in user memory that cannot be written (`copy_to_user`
reports 16 bytes uncopied): the command returns success and sets
`active`, and the caller's payload still holds id 0, not the connection's
id 5. -/
theorem hello_unwritable_succeeds :
    (sample_conn kdbus_conn_type.EP false).id = 5
      ∧ (kdbus_conn_ioctl sample_h ext_ok (sample_conn kdbus_conn_type.EP false)
          kdbus_cmd.HELLO (sample_argp 0 16)).ret = 0
      ∧ (kdbus_conn_ioctl sample_h ext_ok (sample_conn kdbus_conn_type.EP false)
          kdbus_cmd.HELLO (sample_argp 0 16)).conn.active = true
      ∧ (kdbus_conn_ioctl sample_h ext_ok (sample_conn kdbus_conn_type.EP false)
          kdbus_cmd.HELLO (sample_argp 0 16)).argp.hello = some ⟨0, 0⟩ := by
  refine ⟨rfl, by decide, by decide, by decide⟩

/-! ## Open and release -/

theorem set_conn_none_of_free (s : State) (p : Ptr) (hp : s.conn p = none) :
    set_conn s p none = s := by
  cases s with
  | mk i n e b c =>
    simp only [set_conn, State.mk.injEq, true_and]
    simp only at hp
    rw [← hp]
    exact Function.update_eq_self p c

/-- C6 (amended): for a device whose major number resolves to no namespace or to a
namespace marked disconnected, `kdbus_conn_open` returns not-found when
the connection object can be allocated, and out-of-memory when it cannot;
either way the state is the one before the call. -/
theorem open_namespace_gone (s : State) (m : Bool) (major minor : Nat) (p : Ptr)
    (hns : ∀ nsp, idr_find s.kdbus_ns_major_idr major = some nsp →
      (s.ns nsp).disconnected = true)
    (hfree : s.conn p = none) :
    kdbus_conn_open s ⟨some p, m⟩ major minor = ⟨-ENOENT, none, s⟩
      ∧ kdbus_conn_open s ⟨none, m⟩ major minor = ⟨-ENOMEM, none, s⟩ := by
  refine ⟨?_, rfl⟩
  unfold kdbus_conn_open
  simp only
  cases hl : idr_find s.kdbus_ns_major_idr major with
  | none => simp [set_conn_none_of_free s p hfree]
  | some nsp => simp [hns nsp hl, set_conn_none_of_free s p hfree]

theorem open_namespace_gone_witness :
    (∀ nsp, idr_find (sample_state true 0 []).kdbus_ns_major_idr 1 = some nsp →
        ((sample_state true 0 []).ns nsp).disconnected = true)
      ∧ (sample_state true 0 []).conn 7 = none
      ∧ (kdbus_conn_open (sample_state true 0 []) ⟨some 7, true⟩ 1 1).ret = -ENOENT :=
  ⟨fun _ _ => rfl, rfl,
    congrArg open_result.ret
      (open_namespace_gone (sample_state true 0 []) true 1 1 7 (fun _ _ => rfl) rfl).1⟩

/-- C6 (as stated) fails: with the namespace marked disconnected and no memory for the
connection object, `kdbus_conn_open` returns out-of-memory, not not-found. -/
theorem open_namespace_gone_nomem :
    (∃ nsp, idr_find (sample_state true 0 []).kdbus_ns_major_idr 1 = some nsp
        ∧ ((sample_state true 0 []).ns nsp).disconnected = true)
      ∧ (kdbus_conn_open (sample_state true 0 []) ⟨none, true⟩ 1 1).ret = -ENOMEM
      ∧ (kdbus_conn_open (sample_state true 0 []) ⟨none, true⟩ 1 1).ret ≠ -ENOENT := by
  refine ⟨⟨0, rfl, rfl⟩, by decide, by decide⟩

theorem release_loop_eq (q : List kdbus_msg_list_entry) :
    release_loop q = ([], q.map (fun entry => effect.kmsg_unref entry.kmsg)) := by
  induction q with
  | nil => rfl
  | cons entry rest ih => simp [release_loop, ih]

/-- C7: `kdbus_conn_release` of an endpoint connection returns success, makes one
`kdbus_kmsg_unref` call for each queue entry, in queue order, and no other
envelope call, leaves the queue empty, takes the connection out of the
endpoint's connection list and frees it; with an empty queue it makes no
envelope call at all. -/
theorem release_endpoint (s : State) (p : Ptr) (c : kdbus_conn) (e nsp : Ptr)
    (hc : s.conn p = some c) (ht : c.type = kdbus_conn_type.EP)
    (he : c.ep = some e) (hn : c.ns = some nsp) :
    ∃ r, kdbus_conn_release s p = some r
      ∧ r.ret = 0
      ∧ r.calls = c.msg_list.map (fun entry => effect.kmsg_unref entry.kmsg)
      ∧ r.calls.length = c.msg_list.length
      ∧ r.msg_list = []
      ∧ p ∉ (r.state.ep e).connection_list
      ∧ (∀ q, q ≠ p → (q ∈ (r.state.ep e).connection_list ↔ q ∈ (s.ep e).connection_list))
      ∧ r.state.conn p = none
      ∧ (c.msg_list = [] → r.calls = []) := by
  unfold kdbus_conn_release
  simp only [hc, ht, he, hn, release_loop_eq]
  refine ⟨_, rfl, rfl, rfl, by simp, rfl, ?_, ?_, ?_, ?_⟩
  · simp [set_conn, kdbus_ns_unref, set_ep, kdbus_ep_unref]
  · intro q hq
    simp [set_conn, kdbus_ns_unref, set_ep, kdbus_ep_unref, hq]
  · simp [set_conn]
  · intro h0
    simp [h0]

theorem release_endpoint_witness :
    (sample_open_state [⟨⟨1, 0⟩⟩, ⟨⟨2, 9⟩⟩, ⟨⟨3, 0⟩⟩]).conn 7
        = some ⟨kdbus_conn_type.EP, some 0, some 0, none, none, 5, false, false,
            [⟨⟨1, 0⟩⟩, ⟨⟨2, 9⟩⟩, ⟨⟨3, 0⟩⟩]⟩
      ∧ ∃ r, kdbus_conn_release (sample_open_state [⟨⟨1, 0⟩⟩, ⟨⟨2, 9⟩⟩, ⟨⟨3, 0⟩⟩]) 7 = some r
          ∧ r.ret = 0
          ∧ r.calls = [effect.kmsg_unref ⟨1, 0⟩, effect.kmsg_unref ⟨2, 9⟩, effect.kmsg_unref ⟨3, 0⟩]
          ∧ r.msg_list = []
          ∧ 7 ∉ (r.state.ep 0).connection_list :=
  ⟨rfl,
    (release_endpoint (sample_open_state [⟨⟨1, 0⟩⟩, ⟨⟨2, 9⟩⟩, ⟨⟨3, 0⟩⟩]) 7
      ⟨kdbus_conn_type.EP, some 0, some 0, none, none, 5, false, false,
        [⟨⟨1, 0⟩⟩, ⟨⟨2, 9⟩⟩, ⟨⟨3, 0⟩⟩]⟩ 0 0 rfl rfl rfl rfl).imp
      (fun _ h => ⟨h.1, h.2.1, h.2.2.1, h.2.2.2.2.1, h.2.2.2.2.2.1⟩)⟩

theorem idr_get_empty_slot_some (t : idr) (fuel start i : Nat)
    (h : idr_get_empty_slot t start fuel = some i) :
    i ∉ t.map Prod.fst ∧ start ≤ i := by
  induction fuel generalizing start with
  | zero => simp [idr_get_empty_slot] at h
  | succ n ih =>
    unfold idr_get_empty_slot at h
    split at h
    · have := ih (start + 1) h
      exact ⟨this.1, by omega⟩
    · cases h
      exact ⟨by assumption, Nat.le_refl _⟩

theorem idr_alloc_nonneg (t : idr) (p : Ptr) (start : Int) (m : Bool)
    (h : 0 ≤ (idr_alloc t p start m).1) :
    ∃ i : Nat, (idr_alloc t p start m).1 = (i : Int) ∧ i ∉ t.map Prod.fst
      ∧ start ≤ (i : Int) ∧ i ≤ INT_MAX ∧ (idr_alloc t p start m).2 = (i, p) :: t := by
  by_cases hs : start < 0
  · simp [idr_alloc, hs, EINVAL] at h
  · by_cases hm : m = true
    · cases hi : idr_get_empty_slot t start.toNat (t.length + 1) with
      | none => simp [idr_alloc, hs, hm, hi, ENOSPC] at h
      | some i =>
        by_cases hmax : INT_MAX < i
        · simp [idr_alloc, hs, hm, hi, hmax, ENOSPC] at h
        · have hslot := idr_get_empty_slot_some t _ _ _ hi
          refine ⟨i, ?_, hslot.1, ?_, Nat.le_of_not_lt hmax, ?_⟩
          · simp [idr_alloc, hs, hm, hi, hmax]
          · have := hslot.2
            omega
          · simp [idr_alloc, hs, hm, hi, hmax]
    · simp [idr_alloc, hs, hm, ENOMEM] at h

theorem idr_alloc_neg (t : idr) (p : Ptr) (start : Int) (m : Bool)
    (h : ¬ 0 ≤ (idr_alloc t p start m).1) : (idr_alloc t p start m).2 = t := by
  by_cases hs : start < 0
  · simp [idr_alloc, hs]
  · by_cases hm : m = true
    · cases hi : idr_get_empty_slot t start.toNat (t.length + 1) with
      | none => simp [idr_alloc, hs, hm, hi]
      | some i =>
        by_cases hmax : INT_MAX < i
        · simp [idr_alloc, hs, hm, hi, hmax]
        · simp [idr_alloc, hs, hm, hi, hmax] at h
    · simp [idr_alloc, hs, hm]

theorem idr_find_some_mem (t : idr) (id : Nat) (q : Ptr) (h : idr_find t id = some q) :
    id ∈ t.map Prod.fst := by
  induction t with
  | nil => simp [idr_find] at h
  | cons kv rest ih =>
    obtain ⟨k, v⟩ := kv
    by_cases hk : id = k
    · simp [hk]
    · have hb : (id == k) = false := by simp [hk]
      simp only [idr_find, List.lookup, hb] at h
      simp [ih h]

theorem u64_to_int_small (x : Nat) (h : x < 2 ^ 31) : u64_to_int x = (x : Int) := by
  have h1 : x % 2 ^ 32 = x := Nat.mod_eq_of_lt (by omega)
  unfold u64_to_int
  rw [h1, if_pos h]

theorem idr_alloc_free (t : idr) (p : Ptr) (id : Nat) (hid : id < 2 ^ 31)
    (hfree : id ∉ t.map Prod.fst) :
    idr_alloc t p (u64_to_int id) true = ((id : Int), (id, p) :: t) := by
  have hslot : idr_get_empty_slot t id (t.length + 1) = some id := by
    simp only [idr_get_empty_slot]
    rw [if_neg hfree]
  have hmax : ¬ INT_MAX < id := by
    simp only [INT_MAX]
    omega
  rw [u64_to_int_small id hid]
  simp [idr_alloc, hslot, hmax]

/-- C8: on a bus whose next-id counter stands at `2 ^ 31`, the open of an endpoint
device succeeds and gives the connection id `2 ^ 31`, and the counter moves to
`2 ^ 31 + 1`, but the bus's id table holds no entry for that id: it is
still empty. -/
theorem open_id_2_31_not_in_table :
    (kdbus_conn_open (sample_state false (2 ^ 31) []) ⟨some 7, true⟩ 1 1).ret = 0
      ∧ (kdbus_conn_open (sample_state false (2 ^ 31) []) ⟨some 7, true⟩ 1 1).state.conn 7
          = some ⟨kdbus_conn_type.EP, some 0, some 0, none, none, 2 ^ 31, false, false, []⟩
      ∧ ((kdbus_conn_open (sample_state false (2 ^ 31) []) ⟨some 7, true⟩ 1 1).state.bus
          0).conn_id_next = 2 ^ 31 + 1
      ∧ idr_find ((kdbus_conn_open (sample_state false (2 ^ 31) []) ⟨some 7, true⟩ 1 1).state.bus
          0).conn_idr (2 ^ 31) = none
      ∧ ((kdbus_conn_open (sample_state false (2 ^ 31) []) ⟨some 7, true⟩ 1 1).state.bus
          0).conn_idr = [] := by
  refine ⟨by decide, by decide, by decide, by decide, by decide⟩

theorem open_ep_eq (s : State) (env : open_env) (p nsp minor epp : Nat)
    (hl : idr_find (s.ns nsp).idr minor = some epp) (hd : (s.ep epp).disconnected = false) :
    kdbus_conn_open_ep s env p nsp minor
      = if 0 ≤ (idr_alloc (s.bus (s.ep epp).bus).conn_idr p
              (u64_to_int (s.bus (s.ep epp).bus).conn_id_next) env.idr_mem_ok).1
            ∧ ((s.bus (s.ep epp).bus).conn_id_next : Int)
              ≠ (idr_alloc (s.bus (s.ep epp).bus).conn_idr p
                  (u64_to_int (s.bus (s.ep epp).bus).conn_id_next) env.idr_mem_ok).1 then
          ⟨-EEXIST, some p,
            { s with
              ep := Function.update s.ep epp { s.ep epp with kref := (s.ep epp).kref + 1 }
              bus := Function.update s.bus (s.ep epp).bus
                { s.bus (s.ep epp).bus with
                  conn_id_next := ((s.bus (s.ep epp).bus).conn_id_next + 1) % 2 ^ 64
                  conn_idr := idr_remove
                    (idr_alloc (s.bus (s.ep epp).bus).conn_idr p
                      (u64_to_int (s.bus (s.ep epp).bus).conn_id_next) env.idr_mem_ok).2
                    (idr_alloc (s.bus (s.ep epp).bus).conn_idr p
                      (u64_to_int (s.bus (s.ep epp).bus).conn_id_next) env.idr_mem_ok).1.toNat }
              conn := Function.update s.conn p none }⟩
        else
          ⟨0, some p,
            { s with
              ep := Function.update s.ep epp
                { s.ep epp with
                  kref := (s.ep epp).kref + 1
                  connection_list := (s.ep epp).connection_list ++ [p] }
              bus := Function.update s.bus (s.ep epp).bus
                { s.bus (s.ep epp).bus with
                  conn_id_next := ((s.bus (s.ep epp).bus).conn_id_next + 1) % 2 ^ 64
                  conn_idr := (idr_alloc (s.bus (s.ep epp).bus).conn_idr p
                      (u64_to_int (s.bus (s.ep epp).bus).conn_id_next) env.idr_mem_ok).2 }
              conn := Function.update s.conn p
                (some ⟨kdbus_conn_type.EP, some nsp, some epp, none, none,
                  (s.bus (s.ep epp).bus).conn_id_next, false, false, []⟩) }⟩ := by
  unfold kdbus_conn_open_ep
  simp only [hl]
  simp [hd, set_conn, set_bus, set_ep, kdbus_ep_ref, conn_zero]

theorem open_ep_frame (s : State) (env : open_env) (p nsp minor : Nat) :
    (∀ e, ((kdbus_conn_open_ep s env p nsp minor).state.ep e).bus = (s.ep e).bus)
      ∧ (∀ b, ((kdbus_conn_open_ep s env p nsp minor).state.bus b).conn_id_next
            = (s.bus b).conn_id_next
          ∨ ((kdbus_conn_open_ep s env p nsp minor).state.bus b).conn_id_next
            = ((s.bus b).conn_id_next + 1) % 2 ^ 64)
      ∧ (∀ q, q ≠ p → (kdbus_conn_open_ep s env p nsp minor).state.conn q = s.conn q)
      ∧ ((kdbus_conn_open_ep s env p nsp minor).state.conn p = none
          ∨ ∃ c e, (kdbus_conn_open_ep s env p nsp minor).state.conn p = some c
              ∧ c.type = kdbus_conn_type.EP ∧ c.ep = some e
              ∧ c.id = (s.bus (s.ep e).bus).conn_id_next
              ∧ ((kdbus_conn_open_ep s env p nsp minor).state.bus (s.ep e).bus).conn_id_next
                  = (c.id + 1) % 2 ^ 64) := by
  cases hl : idr_find (s.ns nsp).idr minor with
  | none =>
    have hr : kdbus_conn_open_ep s env p nsp minor = ⟨-ENOENT, some p, set_conn s p none⟩ := by
      simp [kdbus_conn_open_ep, hl]
    rw [hr]
    refine ⟨fun e => rfl, fun b => Or.inl rfl, ?_, ?_⟩
    · intro q hq; simp [set_conn, Function.update_noteq hq]
    · left; simp [set_conn]
  | some epp =>
    by_cases hd : (s.ep epp).disconnected = true
    · have hr : kdbus_conn_open_ep s env p nsp minor = ⟨-ENOENT, some p, set_conn s p none⟩ := by
        simp [kdbus_conn_open_ep, hl, hd]
      rw [hr]
      refine ⟨fun e => rfl, fun b => Or.inl rfl, ?_, ?_⟩
      · intro q hq; simp [set_conn, Function.update_noteq hq]
      · left; simp [set_conn]
    · have hd' : (s.ep epp).disconnected = false := by simpa using hd
      rw [open_ep_eq s env p nsp minor epp hl hd']
      split
      · refine ⟨?_, ?_, ?_, ?_⟩
        · intro e
          by_cases he : e = epp
          · subst he; simp
          · simp [Function.update_noteq he]
        · intro b
          by_cases hb : b = (s.ep epp).bus
          · subst hb; simp
          · simp [Function.update_noteq hb]
        · intro q hq; simp [Function.update_noteq hq]
        · left; simp
      · refine ⟨?_, ?_, ?_, ?_⟩
        · intro e
          by_cases he : e = epp
          · subst he; simp
          · simp [Function.update_noteq he]
        · intro b
          by_cases hb : b = (s.ep epp).bus
          · subst hb; simp
          · simp [Function.update_noteq hb]
        · intro q hq; simp [Function.update_noteq hq]
        · right
          exact ⟨⟨kdbus_conn_type.EP, some nsp, some epp, none, none,
            (s.bus (s.ep epp).bus).conn_id_next, false, false, []⟩, epp, by simp, rfl, rfl, rfl,
            by simp⟩

theorem open_frame (s : State) (env : open_env) (major minor : Nat) (p : Ptr)
    (hk : env.kzalloc = some p) :
    (∀ e, ((kdbus_conn_open s env major minor).state.ep e).bus = (s.ep e).bus)
      ∧ (∀ b, ((kdbus_conn_open s env major minor).state.bus b).conn_id_next
            = (s.bus b).conn_id_next
          ∨ ((kdbus_conn_open s env major minor).state.bus b).conn_id_next
            = ((s.bus b).conn_id_next + 1) % 2 ^ 64)
      ∧ (∀ q, q ≠ p → (kdbus_conn_open s env major minor).state.conn q = s.conn q)
      ∧ ((kdbus_conn_open s env major minor).state.conn p = none
          ∨ (∃ c, (kdbus_conn_open s env major minor).state.conn p = some c
              ∧ c.type = kdbus_conn_type.CONTROL)
          ∨ ∃ c e, (kdbus_conn_open s env major minor).state.conn p = some c
              ∧ c.type = kdbus_conn_type.EP ∧ c.ep = some e
              ∧ c.id = (s.bus (s.ep e).bus).conn_id_next
              ∧ ((kdbus_conn_open s env major minor).state.bus (s.ep e).bus).conn_id_next
                  = (c.id + 1) % 2 ^ 64) := by
  unfold kdbus_conn_open
  simp only [hk]
  cases hl : idr_find s.kdbus_ns_major_idr major with
  | none =>
    refine ⟨fun e => rfl, fun b => Or.inl rfl, ?_, ?_⟩
    · intro q hq; simp [set_conn, Function.update_noteq hq]
    · left; simp [set_conn]
  | some nsp =>
    by_cases hd : (s.ns nsp).disconnected = true
    · simp only [hd, ↓reduceIte]
      refine ⟨fun e => rfl, fun b => Or.inl rfl, ?_, ?_⟩
      · intro q hq; simp [set_conn, Function.update_noteq hq]
      · left; simp [set_conn]
    · by_cases hm : minor = 0
      · simp only [hd, hm, ↓reduceIte]
        refine ⟨fun e => rfl, fun b => Or.inl rfl, ?_, ?_⟩
        · intro q hq; simp [set_conn, kdbus_ns_ref, Function.update_noteq hq]
        · right; left
          exact ⟨{ conn_zero with type := kdbus_conn_type.CONTROL, ns := some nsp },
            by simp [set_conn], rfl⟩
      · simp only [hd, hm, ↓reduceIte]
        have hf := open_ep_frame (kdbus_ns_ref s nsp) env p nsp minor
        refine ⟨hf.1, hf.2.1, hf.2.2.1, ?_⟩
        rcases hf.2.2.2 with h0 | h1
        · exact Or.inl h0
        · exact Or.inr (Or.inr h1)

theorem release_frame (s : State) (p : Ptr) (r : release_result)
    (hr : kdbus_conn_release s p = some r) :
    (∀ e, (r.state.ep e).bus = (s.ep e).bus)
      ∧ (∀ b, (r.state.bus b).conn_id_next = (s.bus b).conn_id_next)
      ∧ (∀ q, q ≠ p → r.state.conn q = s.conn q)
      ∧ r.state.conn p = none := by
  unfold kdbus_conn_release at hr
  cases hc : s.conn p with
  | none => simp [hc] at hr
  | some c =>
    cases hn : c.ns with
    | none =>
      simp only [hc, hn] at hr
      split at hr <;> simp_all
    | some nsp =>
      simp only [hc, hn] at hr
      cases ht : c.type with
      | UNDEFINED =>
        simp only [ht, Option.some.injEq] at hr
        subst hr
        refine ⟨fun e => rfl, fun b => rfl, ?_, by simp [set_conn]⟩
        intro q hq; simp [set_conn, kdbus_ns_unref, Function.update_noteq hq]
      | CONTROL =>
        simp only [ht, Option.some.injEq] at hr
        subst hr
        refine ⟨fun e => rfl, fun b => rfl, ?_, by simp [set_conn]⟩
        intro q hq; simp [set_conn, kdbus_ns_unref, Function.update_noteq hq]
      | NS_OWNER =>
        simp only [ht, Option.some.injEq] at hr
        subst hr
        refine ⟨fun e => rfl, fun b => rfl, ?_, by simp [set_conn]⟩
        intro q hq; simp [set_conn, kdbus_ns_unref, Function.update_noteq hq]
      | BUS_OWNER =>
        cases hb : c.bus_owner with
        | none => simp [ht, hb] at hr
        | some bo =>
          simp only [ht, hb, Option.some.injEq] at hr
          subst hr
          refine ⟨fun e => rfl, ?_, ?_, by simp [set_conn]⟩
          · intro b
            by_cases hbb : b = bo
            · subst hbb
              simp [set_conn, kdbus_ns_unref, kdbus_bus_unref, kdbus_bus_disconnect]
            · simp [set_conn, kdbus_ns_unref, kdbus_bus_unref, kdbus_bus_disconnect,
                Function.update_noteq hbb]
          · intro q hq
            simp [set_conn, kdbus_ns_unref, kdbus_bus_unref, kdbus_bus_disconnect,
              Function.update_noteq hq]
      | EP =>
        cases he : c.ep with
        | none => simp [ht, he] at hr
        | some ep =>
          simp only [ht, he, Option.some.injEq] at hr
          subst hr
          refine ⟨?_, fun b => rfl, ?_, by simp [set_conn]⟩
          · intro e
            by_cases hee : e = ep
            · subst hee
              simp [set_conn, kdbus_ns_unref, set_ep, kdbus_ep_unref]
            · simp [set_conn, kdbus_ns_unref, set_ep, kdbus_ep_unref, Function.update_noteq hee]
          · intro q hq
            simp [set_conn, kdbus_ns_unref, set_ep, kdbus_ep_unref, Function.update_noteq hq]

theorem step_frame (s : State) (op : file_op) :
    (∀ e, ((step s op).ep e).bus = (s.ep e).bus)
      ∧ (∀ b, ((step s op).bus b).conn_id_next = (s.bus b).conn_id_next
          ∨ ((step s op).bus b).conn_id_next = ((s.bus b).conn_id_next + 1) % 2 ^ 64)
      ∧ ∃ p₀, (∀ q, q ≠ p₀ → (step s op).conn q = s.conn q)
          ∧ ((step s op).conn p₀ = s.conn p₀
            ∨ (step s op).conn p₀ = none
            ∨ (∃ c, (step s op).conn p₀ = some c ∧ c.type = kdbus_conn_type.CONTROL)
            ∨ ∃ c e, (step s op).conn p₀ = some c
                ∧ c.type = kdbus_conn_type.EP ∧ c.ep = some e
                ∧ c.id = (s.bus (s.ep e).bus).conn_id_next
                ∧ ((step s op).bus (s.ep e).bus).conn_id_next = (c.id + 1) % 2 ^ 64) := by
  have hsame : (∀ e, (s.ep e).bus = (s.ep e).bus)
      ∧ (∀ b, (s.bus b).conn_id_next = (s.bus b).conn_id_next
          ∨ (s.bus b).conn_id_next = ((s.bus b).conn_id_next + 1) % 2 ^ 64)
      ∧ ∃ p₀, (∀ q, q ≠ p₀ → s.conn q = s.conn q)
          ∧ (s.conn p₀ = s.conn p₀
            ∨ s.conn p₀ = none
            ∨ (∃ c, s.conn p₀ = some c ∧ c.type = kdbus_conn_type.CONTROL)
            ∨ ∃ c e, s.conn p₀ = some c
                ∧ c.type = kdbus_conn_type.EP ∧ c.ep = some e
                ∧ c.id = (s.bus (s.ep e).bus).conn_id_next
                ∧ (s.bus (s.ep e).bus).conn_id_next = (c.id + 1) % 2 ^ 64) :=
    ⟨fun _ => rfl, fun _ => Or.inl rfl, 0, fun _ _ => rfl, Or.inl rfl⟩
  cases op with
  | dev_open env major minor =>
    cases hk : env.kzalloc with
    | none =>
      have hs : step s (file_op.dev_open env major minor) = s := by
        simp [step, hk, kdbus_conn_open]
      rw [hs]; exact hsame
    | some p =>
      by_cases ho : (s.conn p).isSome = true
      · have hs : step s (file_op.dev_open env major minor) = s := by
          simp [step, hk, ho]
        rw [hs]; exact hsame
      · have hs : step s (file_op.dev_open env major minor)
            = (kdbus_conn_open s env major minor).state := by
          simp [step, hk, ho]
        rw [hs]
        have hf := open_frame s env major minor p hk
        exact ⟨hf.1, hf.2.1, p, hf.2.2.1, Or.inr hf.2.2.2⟩
  | dev_release p =>
    cases hr : kdbus_conn_release s p with
    | none =>
      have hs : step s (file_op.dev_release p) = s := by simp [step, hr]
      rw [hs]; exact hsame
    | some r =>
      have hs : step s (file_op.dev_release p) = r.state := by simp [step, hr]
      rw [hs]
      have hf := release_frame s p r hr
      exact ⟨hf.1, fun b => Or.inl (hf.2.1 b), p, hf.2.2.1, Or.inr (Or.inl hf.2.2.2)⟩

theorem step_invariant (s : State) (op : file_op) (n : Nat)
    (hbelow : ids_below_counter s) (huniq : ids_unique s)
    (hbound : ∀ b, (s.bus b).conn_id_next + (n + 1) < 2 ^ 64) :
    ids_below_counter (step s op) ∧ ids_unique (step s op)
      ∧ ∀ b, ((step s op).bus b).conn_id_next + n < 2 ^ 64 := by
  obtain ⟨hep, hctr, p₀, hother, hp₀⟩ := step_frame s op
  have hmono : ∀ b, (s.bus b).conn_id_next ≤ ((step s op).bus b).conn_id_next := by
    intro b
    have hb := hbound b
    rcases hctr b with h | h
    · omega
    · rw [h, Nat.mod_eq_of_lt (by omega)]; omega
  -- every endpoint connection after the step is an old one, or the one just created
  have hcases : ∀ q c, (step s op).conn q = some c → c.type = kdbus_conn_type.EP →
      s.conn q = some c ∨ (q = p₀ ∧ ∃ e, c.ep = some e
        ∧ c.id = (s.bus (s.ep e).bus).conn_id_next
        ∧ ((step s op).bus (s.ep e).bus).conn_id_next = (c.id + 1) % 2 ^ 64) := by
    intro q c hq ht
    by_cases hqp : q = p₀
    · subst hqp
      rcases hp₀ with h | h | ⟨c', h, ht'⟩ | ⟨c', e, h, _, he, hid, hnext⟩
      · left; rw [← h]; exact hq
      · rw [h] at hq; cases hq
      · rw [h] at hq; cases hq; rw [ht] at ht'; cases ht'
      · rw [h] at hq; cases hq
        exact Or.inr ⟨rfl, e, he, hid, hnext⟩
    · left; rw [← hother q hqp]; exact hq
  refine ⟨?_, ?_, ?_⟩
  · intro q c hq ht
    rcases hcases q c hq ht with hold | ⟨_, e, he, hid, hnext⟩
    · obtain ⟨e, he, hlt⟩ := hbelow q c hold ht
      refine ⟨e, he, ?_⟩
      rw [hep e]
      exact Nat.lt_of_lt_of_le hlt (hmono _)
    · refine ⟨e, he, ?_⟩
      rw [hep e, hnext]
      have hb := hbound (s.ep e).bus
      rw [Nat.mod_eq_of_lt (by omega)]
      omega
  · intro b p q c d hp hq hpq
    obtain ⟨hpc, hpt, ep, hpe, hpb⟩ := hp
    obtain ⟨hqc, hqt, eq', hqe, hqb⟩ := hq
    rw [hep] at hpb hqb
    rcases hcases p c hpc hpt with hpold | ⟨hpn, e₁, he₁, hid₁, _⟩
    · rcases hcases q d hqc hqt with hqold | ⟨hqn, e₂, he₂, hid₂, _⟩
      · exact huniq b p q c d ⟨hpold, hpt, ep, hpe, hpb⟩ ⟨hqold, hqt, eq', hqe, hqb⟩ hpq
      · obtain ⟨e, he, hlt⟩ := hbelow p c hpold hpt
        rw [hpe] at he; cases he
        rw [hqe] at he₂; cases he₂
        rw [hpb] at hlt; rw [hqb] at hid₂
        omega
    · rcases hcases q d hqc hqt with hqold | ⟨hqn, e₂, he₂, hid₂, _⟩
      · obtain ⟨e, he, hlt⟩ := hbelow q d hqold hqt
        rw [hqe] at he; cases he
        rw [hpe] at he₁; cases he₁
        rw [hqb] at hlt; rw [hpb] at hid₁
        omega
      · exact absurd (hpn.trans hqn.symm) hpq
  · intro b
    have hb := hbound b
    rcases hctr b with h | h
    · omega
    · rw [h, Nat.mod_eq_of_lt (by omega)]; omega

theorem run_invariant (ops : List file_op) (s : State)
    (hbelow : ids_below_counter s) (huniq : ids_unique s)
    (hbound : ∀ b, (s.bus b).conn_id_next + ops.length < 2 ^ 64) :
    ids_below_counter (run s ops) ∧ ids_unique (run s ops) := by
  induction ops generalizing s with
  | nil => exact ⟨hbelow, huniq⟩
  | cons op rest ih =>
    obtain ⟨h1, h2, h3⟩ := step_invariant s op rest.length hbelow huniq (by simpa using hbound)
    exact ih (step s op) h1 h2 h3

theorem open_at_sample (s : State) (p : Ptr) (m : Bool)
    (h1 : s.kdbus_ns_major_idr = [(1, 0)]) (h2 : (s.ns 0).disconnected = false)
    (h3 : (s.ns 0).idr = [(1, 0)]) (h4 : (s.ep 0).disconnected = false) :
    kdbus_conn_open s ⟨some p, m⟩ 1 1
      = kdbus_conn_open_ep (kdbus_ns_ref s 0) ⟨some p, m⟩ p 0 1
      ∧ idr_find ((kdbus_ns_ref s 0).ns 0).idr 1 = some 0
      ∧ ((kdbus_ns_ref s 0).ep 0).disconnected = false := by
  refine ⟨?_, ?_, h4⟩
  · simp [kdbus_conn_open, h1, idr_find, List.lookup, h2]
  · simp [kdbus_ns_ref, h3, idr_find, List.lookup]

theorem wrap_round_inv (s : State) (k : Nat) (h : wrap_inv s k) :
    wrap_inv (run s wrap_round) (k + 1) := by
  obtain ⟨h1, h2, h3, h4, h5, h6, h7, h8⟩ := h
  obtain ⟨ho, hl, hd⟩ := open_at_sample s 8 true h1 h2 h3 h4
  have hstep : step s (file_op.dev_open ⟨some 8, true⟩ 1 1)
      = (kdbus_conn_open_ep (kdbus_ns_ref s 0) ⟨some 8, true⟩ 8 0 1).state := by
    simp [step, h8, ho]
  simp only [wrap_round, run, hstep]
  rw [open_ep_eq _ _ _ _ _ _ hl hd]
  have hb : ((kdbus_ns_ref s 0).ep 0).bus = 0 := h5
  have hc : ((kdbus_ns_ref s 0).bus 0).conn_id_next = k % 2 ^ 64 := h6
  split
  · simp only [step, kdbus_conn_release, Function.update_same, hb]
    refine ⟨h1, ?_, ?_, ?_, ?_, ?_, ?_, ?_⟩
    · simp [kdbus_ns_ref, h2]
    · simp [kdbus_ns_ref, h3]
    · simp [kdbus_ns_ref, h4]
    · simp [kdbus_ns_ref, h5]
    · simp [hc, Nat.add_mod]
    · simpa [kdbus_ns_ref] using h7
    · simp
  · simp only [step, kdbus_conn_release, Function.update_same, hb, release_loop]
    refine ⟨h1, ?_, ?_, ?_, ?_, ?_, ?_, ?_⟩
    · simp [kdbus_ns_ref, kdbus_ns_unref, set_conn, set_ep, kdbus_ep_unref, h2]
    · simp [kdbus_ns_ref, kdbus_ns_unref, set_conn, set_ep, kdbus_ep_unref, h3]
    · simp [kdbus_ns_ref, kdbus_ns_unref, set_conn, set_ep, kdbus_ep_unref, h4]
    · simp [kdbus_ns_ref, kdbus_ns_unref, set_conn, set_ep, kdbus_ep_unref, h5]
    · simp [kdbus_ns_ref, kdbus_ns_unref, set_conn, set_ep, kdbus_ep_unref, h6, Nat.add_mod]
    · simpa [kdbus_ns_ref, kdbus_ns_unref, set_conn, set_ep, kdbus_ep_unref] using h7
    · simp [kdbus_ns_ref, kdbus_ns_unref, set_conn, set_ep, kdbus_ep_unref]

theorem run_append (s : State) (xs ys : List file_op) :
    run s (xs ++ ys) = run (run s xs) ys := by
  induction xs generalizing s with
  | nil => rfl
  | cons op rest ih => exact ih (step s op)

theorem wrap_rounds_inv (n : Nat) (s : State) (k : Nat) (h : wrap_inv s k) :
    wrap_inv (run s (repeat_ops n wrap_round)) (k + n) := by
  induction n generalizing s k with
  | zero => exact h
  | succ n ih =>
    rw [repeat_ops, run_append]
    have := ih (run s wrap_round) (k + 1) (wrap_round_inv s k h)
    rwa [Nat.add_assoc, Nat.add_comm 1 n] at this

theorem wrap_first_open : wrap_inv (step (sample_state false (2 ^ 31) [])
    (file_op.dev_open ⟨some 7, true⟩ 1 1)) (2 ^ 31 + 1) := by
  refine ⟨rfl, rfl, rfl, rfl, rfl, by decide, by decide, by decide⟩

theorem wrap_last_open (s : State) (h : wrap_inv s (2 ^ 31 + 1 + (2 ^ 64 - 1))) :
    ∃ c d, ep_conn_on (step s (file_op.dev_open ⟨some 8, true⟩ 1 1)) 0 7 c
      ∧ ep_conn_on (step s (file_op.dev_open ⟨some 8, true⟩ 1 1)) 0 8 d
      ∧ c.id = d.id := by
  obtain ⟨h1, h2, h3, h4, h5, h6, h7, h8⟩ := h
  obtain ⟨ho, hl, hd⟩ := open_at_sample s 8 true h1 h2 h3 h4
  have hstep : step s (file_op.dev_open ⟨some 8, true⟩ 1 1)
      = (kdbus_conn_open_ep (kdbus_ns_ref s 0) ⟨some 8, true⟩ 8 0 1).state := by
    simp [step, h8, ho]
  have hb : ((kdbus_ns_ref s 0).ep 0).bus = 0 := h5
  have hk : (2 ^ 31 + 1 + (2 ^ 64 - 1)) % 2 ^ 64 = 2 ^ 31 := by norm_num
  have hc : ((kdbus_ns_ref s 0).bus 0).conn_id_next = 2 ^ 31 := by rw [← hk]; exact h6
  have hneg : u64_to_int (2 ^ 31) < 0 := by decide
  rw [hstep, open_ep_eq _ _ _ _ _ _ hl hd]
  simp only [hb, hc, idr_alloc, hneg, ↓reduceIte]
  have hE : ¬ (0 : Int) ≤ -EINVAL := by decide
  simp only [hE, false_and, ↓reduceIte]
  refine ⟨⟨kdbus_conn_type.EP, some 0, some 0, none, none, 2 ^ 31, false, false, []⟩,
    ⟨kdbus_conn_type.EP, some 0, some 0, none, none, 2 ^ 31, false, false, []⟩, ?_, ?_, rfl⟩
  · refine ⟨?_, rfl, 0, rfl, ?_⟩
    · simpa [kdbus_ns_ref] using h7
    · simp [kdbus_ns_ref, h5]
  · refine ⟨?_, rfl, 0, rfl, ?_⟩
    · simp
    · simp [kdbus_ns_ref, h5]

theorem open_taken_id_eexist (s : State) (m : Bool) (major minor : Nat) (p nsp epp q : Ptr)
    (hns : idr_find s.kdbus_ns_major_idr major = some nsp)
    (hnd : (s.ns nsp).disconnected = false) (hm : minor ≠ 0)
    (hep : idr_find (s.ns nsp).idr minor = some epp) (hed : (s.ep epp).disconnected = false)
    (htaken : idr_find (s.bus (s.ep epp).bus).conn_idr (s.bus (s.ep epp).bus).conn_id_next
      = some q)
    (halloc : 0 ≤ (idr_alloc (s.bus (s.ep epp).bus).conn_idr p
      (u64_to_int (s.bus (s.ep epp).bus).conn_id_next) m).1) :
    (kdbus_conn_open s ⟨some p, m⟩ major minor).ret = -EEXIST := by
  have ho : kdbus_conn_open s ⟨some p, m⟩ major minor
      = kdbus_conn_open_ep (kdbus_ns_ref s nsp) ⟨some p, m⟩ p nsp minor := by
    simp [kdbus_conn_open, hns, hnd, hm]
  have hl : idr_find ((kdbus_ns_ref s nsp).ns nsp).idr minor = some epp := by
    simpa [kdbus_ns_ref] using hep
  have hd : ((kdbus_ns_ref s nsp).ep epp).disconnected = false := hed
  rw [ho, open_ep_eq _ _ _ _ _ _ hl hd]
  obtain ⟨i, hi, hfree, _, _, _⟩ := idr_alloc_nonneg _ _ _ _ halloc
  have hmem := idr_find_some_mem _ _ _ htaken
  have hne : ((s.bus (s.ep epp).bus).conn_id_next : Int)
      ≠ (idr_alloc (s.bus (s.ep epp).bus).conn_idr p
          (u64_to_int (s.bus (s.ep epp).bus).conn_id_next) m).1 := by
    rw [hi]
    intro heq
    have : (s.bus (s.ep epp).bus).conn_id_next = i := by exact_mod_cast heq
    rw [this] at hmem
    exact hfree hmem
  have hcond : 0 ≤ (idr_alloc ((kdbus_ns_ref s nsp).bus ((kdbus_ns_ref s nsp).ep epp).bus).conn_idr
        p (u64_to_int ((kdbus_ns_ref s nsp).bus ((kdbus_ns_ref s nsp).ep epp).bus).conn_id_next)
        (open_env.mk (some p) m).idr_mem_ok).1
      ∧ (((kdbus_ns_ref s nsp).bus ((kdbus_ns_ref s nsp).ep epp).bus).conn_id_next : Int)
        ≠ (idr_alloc ((kdbus_ns_ref s nsp).bus ((kdbus_ns_ref s nsp).ep epp).bus).conn_idr
            p (u64_to_int ((kdbus_ns_ref s nsp).bus ((kdbus_ns_ref s nsp).ep epp).bus).conn_id_next)
            (open_env.mk (some p) m).idr_mem_ok).1 := ⟨halloc, hne⟩
  rw [if_pos hcond]

/-- In every state reached from an initial state by a sequence of opens and closes in
which no bus's 64-bit next-id counter wraps around, two different open
endpoint connections of one bus have different ids; and an open that
reaches the id allocation with the new id already in the bus's id table
fails with already-exists when `idr_alloc` hands back a slot. -/
theorem ids_unique_reachable (s₀ : State) (ops : List file_op)
    (s : State) (m : Bool) (major minor : Nat) (p nsp epp q : Ptr)
    (hinit : initial s₀)
    (hbound : ∀ b, (s₀.bus b).conn_id_next + ops.length < 2 ^ 64)
    (hns : idr_find s.kdbus_ns_major_idr major = some nsp)
    (hnd : (s.ns nsp).disconnected = false) (hm : minor ≠ 0)
    (hep : idr_find (s.ns nsp).idr minor = some epp) (hed : (s.ep epp).disconnected = false)
    (htaken : idr_find (s.bus (s.ep epp).bus).conn_idr (s.bus (s.ep epp).bus).conn_id_next
      = some q)
    (halloc : 0 ≤ (idr_alloc (s.bus (s.ep epp).bus).conn_idr p
      (u64_to_int (s.bus (s.ep epp).bus).conn_id_next) m).1) :
    (∀ b p₁ p₂ c₁ c₂, ep_conn_on (run s₀ ops) b p₁ c₁ → ep_conn_on (run s₀ ops) b p₂ c₂ →
        p₁ ≠ p₂ → c₁.id ≠ c₂.id)
      ∧ (kdbus_conn_open s ⟨some p, m⟩ major minor).ret = -EEXIST := by
  refine ⟨?_, open_taken_id_eexist s m major minor p nsp epp q hns hnd hm hep hed htaken halloc⟩
  have hbelow : ids_below_counter s₀ := by
    intro p c hc
    rw [hinit.1 p] at hc
    cases hc
  have huniq : ids_unique s₀ := by
    intro b p q c d hp
    rw [ep_conn_on, hinit.1 p] at hp
    cases hp.1
  exact (run_invariant ops s₀ hbelow huniq hbound).2

theorem ids_unique_reachable_witness :
    initial (sample_state false 5 [])
      ∧ (∀ b, ((sample_state false 5 []).bus b).conn_id_next
          + [file_op.dev_open ⟨some 7, true⟩ 1 1, file_op.dev_open ⟨some 8, true⟩ 1 1].length
            < 2 ^ 64)
      ∧ idr_find ((sample_state false 5 [(5, 9)]).bus 0).conn_idr 5 = some 9
      ∧ (∃ c₁ c₂,
          ep_conn_on (run (sample_state false 5 [])
            [file_op.dev_open ⟨some 7, true⟩ 1 1, file_op.dev_open ⟨some 8, true⟩ 1 1]) 0 7 c₁
          ∧ ep_conn_on (run (sample_state false 5 [])
            [file_op.dev_open ⟨some 7, true⟩ 1 1, file_op.dev_open ⟨some 8, true⟩ 1 1]) 0 8 c₂
          ∧ c₁.id ≠ c₂.id)
      ∧ (kdbus_conn_open (sample_state false 5 [(5, 9)]) ⟨some 7, true⟩ 1 1).ret = -EEXIST :=
  have hinit : initial (sample_state false 5 []) := ⟨fun _ => rfl, fun _ => rfl⟩
  have hbound : ∀ b, ((sample_state false 5 []).bus b).conn_id_next
      + [file_op.dev_open ⟨some 7, true⟩ 1 1, file_op.dev_open ⟨some 8, true⟩ 1 1].length
        < 2 ^ 64 := fun _ => (by decide : 5 + 2 < 2 ^ 64)
  have w := ids_unique_reachable (sample_state false 5 [])
    [file_op.dev_open ⟨some 7, true⟩ 1 1, file_op.dev_open ⟨some 8, true⟩ 1 1]
    (sample_state false 5 [(5, 9)]) true 1 1 7 0 0 9 hinit hbound rfl rfl (by decide) rfl rfl rfl
    (by decide)
  have h7 : ep_conn_on (run (sample_state false 5 [])
      [file_op.dev_open ⟨some 7, true⟩ 1 1, file_op.dev_open ⟨some 8, true⟩ 1 1]) 0 7
      ⟨kdbus_conn_type.EP, some 0, some 0, none, none, 5, false, false, []⟩ :=
    ⟨by decide, rfl, 0, rfl, by decide⟩
  have h8 : ep_conn_on (run (sample_state false 5 [])
      [file_op.dev_open ⟨some 7, true⟩ 1 1, file_op.dev_open ⟨some 8, true⟩ 1 1]) 0 8
      ⟨kdbus_conn_type.EP, some 0, some 0, none, none, 6, false, false, []⟩ :=
    ⟨by decide, rfl, 0, rfl, by decide⟩
  ⟨hinit, hbound, rfl, ⟨_, _, h7, h8, w.1 0 7 8 _ _ h7 h8 (by decide)⟩, w.2⟩

/-- The run `wrap_ops` from an initial state, which takes the next-id counter once around
the 64-bit range, ends with two different open endpoint connections of
one bus that both have id `2 ^ 31`. -/
theorem ids_not_unique_after_wrap :
    initial (sample_state false (2 ^ 31) [])
      ∧ ¬ ids_unique (run (sample_state false (2 ^ 31) []) wrap_ops) := by
  refine ⟨⟨fun _ => rfl, fun _ => rfl⟩, ?_⟩
  intro huniq
  have h1 := wrap_rounds_inv (2 ^ 64 - 1) _ _ wrap_first_open
  obtain ⟨c, d, hc, hd, hid⟩ := wrap_last_open _ h1
  have hrun : run (sample_state false (2 ^ 31) []) wrap_ops
      = step (run (step (sample_state false (2 ^ 31) []) (file_op.dev_open ⟨some 7, true⟩ 1 1))
          (repeat_ops (2 ^ 64 - 1) wrap_round)) (file_op.dev_open ⟨some 8, true⟩ 1 1) := by
    rw [wrap_ops, run, run_append]
    rfl
  rw [hrun] at huniq
  exact huniq 0 7 8 c d hc hd (by decide) hid

/-- The open of an endpoint device on a bus whose next-id counter is below `2 ^ 31` and
not in the id table, with memory for `idr_alloc`: the open succeeds, the
connection's id is the counter's value before the call, the counter is
one larger afterwards, and the id table maps the id to the connection. -/
theorem open_ep_registers (s : State) (major minor : Nat) (p nsp epp : Ptr)
    (hns : idr_find s.kdbus_ns_major_idr major = some nsp)
    (hnd : (s.ns nsp).disconnected = false) (hm : minor ≠ 0)
    (hep : idr_find (s.ns nsp).idr minor = some epp) (hed : (s.ep epp).disconnected = false)
    (hid : (s.bus (s.ep epp).bus).conn_id_next < 2 ^ 31)
    (hfree : (s.bus (s.ep epp).bus).conn_id_next ∉ (s.bus (s.ep epp).bus).conn_idr.map Prod.fst) :
    (kdbus_conn_open s ⟨some p, true⟩ major minor).ret = 0
      ∧ (kdbus_conn_open s ⟨some p, true⟩ major minor).private_data = some p
      ∧ (kdbus_conn_open s ⟨some p, true⟩ major minor).state.conn p
          = some ⟨kdbus_conn_type.EP, some nsp, some epp, none, none,
              (s.bus (s.ep epp).bus).conn_id_next, false, false, []⟩
      ∧ ((kdbus_conn_open s ⟨some p, true⟩ major minor).state.bus (s.ep epp).bus).conn_id_next
          = (s.bus (s.ep epp).bus).conn_id_next + 1
      ∧ idr_find ((kdbus_conn_open s ⟨some p, true⟩ major minor).state.bus
            (s.ep epp).bus).conn_idr (s.bus (s.ep epp).bus).conn_id_next = some p := by
  have ho : kdbus_conn_open s ⟨some p, true⟩ major minor
      = kdbus_conn_open_ep (kdbus_ns_ref s nsp) ⟨some p, true⟩ p nsp minor := by
    simp [kdbus_conn_open, hns, hnd, hm]
  have hl : idr_find ((kdbus_ns_ref s nsp).ns nsp).idr minor = some epp := by
    simpa [kdbus_ns_ref] using hep
  have hd : ((kdbus_ns_ref s nsp).ep epp).disconnected = false := hed
  have ha := idr_alloc_free (s.bus (s.ep epp).bus).conn_idr p _ hid hfree
  have hb : (kdbus_ns_ref s nsp).bus = s.bus := rfl
  have he : (kdbus_ns_ref s nsp).ep = s.ep := rfl
  rw [ho, open_ep_eq _ _ _ _ _ _ hl hd]
  rw [hb, he, ha, if_neg (by simp)]
  refine ⟨rfl, rfl, ?_, ?_, ?_⟩
  · simp
  · simp only [Function.update_same]
    exact Nat.mod_eq_of_lt (by omega)
  · simp [idr_find, List.lookup]

/-! ## The deadline scanner: notifications and repeated scans -/

theorem scan_loop_calls (now : Nat) (q : List kdbus_msg_list_entry) (dl : Nat) :
    (scan_loop now q dl).calls
      = (q.filter (fun entry => !survives now entry)).flatMap expiry_calls := by
  induction q generalizing dl with
  | nil => rfl
  | cons entry rest ih =>
    unfold scan_loop
    by_cases h0 : entry.kmsg.deadline = 0
    · simp [h0, ih, survives]
    · by_cases h1 : entry.kmsg.deadline ≤ now
      · simp [h0, h1, ih, survives, Nat.not_lt.mpr h1, expiry_calls]
      · have h2 : now < entry.kmsg.deadline := Nat.lt_of_not_le h1
        by_cases h3 : entry.kmsg.deadline < dl
        · simp [h0, h1, h3, ih, survives, h2]
        · simp [h0, h1, h3, ih, survives, h2]

theorem expiry_calls_filter (l : List kdbus_msg_list_entry) :
    (l.flatMap expiry_calls).filter envelope_call = l.flatMap expiry_calls := by
  induction l with
  | nil => rfl
  | cons entry rest ih =>
    simp only [List.flatMap_cons, List.filter_append, ih]
    simp [expiry_calls, envelope_call]

theorem expiry_calls_length (l : List kdbus_msg_list_entry) :
    (l.flatMap expiry_calls).length = 2 * l.length := by
  induction l with
  | nil => rfl
  | cons entry rest ih =>
    simp only [List.flatMap_cons, List.length_append, ih, List.length_cons]
    simp [expiry_calls]
    omega

theorem filter_not_length (now : Nat) (q : List kdbus_msg_list_entry) :
    (q.filter (fun entry => !survives now entry)).length
      = q.length - (q.filter (survives now)).length := by
  induction q with
  | nil => rfl
  | cons entry rest ih =>
    have hle : (rest.filter (survives now)).length ≤ rest.length := List.length_filter_le _ _
    by_cases h : survives now entry = true
    · simp [List.filter_cons, h, ih]
    · simp [List.filter_cons, h, ih]
      omega

theorem scan_timeout_calls_eq (now : Nat) (q : List kdbus_msg_list_entry) :
    (kdbus_conn_scan_timeout now q).calls
      = (q.filter (fun entry => !survives now entry)).flatMap expiry_calls
        ++ (if (kdbus_conn_scan_timeout now q).armed then
              [effect.mod_timer (kdbus_conn_scan_timeout now q).deadline
                ((((kdbus_conn_scan_timeout now q).deadline - now) / 1000) % 2 ^ 32)]
            else []) := by
  unfold kdbus_conn_scan_timeout
  by_cases h : (scan_loop now q U64_MAX).deadline = U64_MAX
  · simp [h, scan_loop_calls]
  · simp [h, scan_loop_calls]

theorem scan_envelope_calls (now : Nat) (q : List kdbus_msg_list_entry) :
    (kdbus_conn_scan_timeout now q).calls.filter envelope_call
      = (q.filter (fun entry => !survives now entry)).flatMap expiry_calls := by
  rw [scan_timeout_calls_eq, List.filter_append, expiry_calls_filter]
  split <;> simp [envelope_call]

theorem expiry_calls_filter_not (l : List kdbus_msg_list_entry) :
    (l.flatMap expiry_calls).filter (fun c => !envelope_call c) = [] := by
  induction l with
  | nil => rfl
  | cons entry rest ih =>
    simp only [List.flatMap_cons, List.filter_append, ih]
    simp [expiry_calls, envelope_call]

theorem scan_timer_calls (now : Nat) (q : List kdbus_msg_list_entry) :
    (kdbus_conn_scan_timeout now q).calls.filter (fun c => !envelope_call c)
      = if (kdbus_conn_scan_timeout now q).armed then
          [effect.mod_timer (kdbus_conn_scan_timeout now q).deadline
            ((((kdbus_conn_scan_timeout now q).deadline - now) / 1000) % 2 ^ 32)]
        else [] := by
  rw [scan_timeout_calls_eq, List.filter_append, expiry_calls_filter_not]
  split <;> simp [envelope_call]

/-- C18: the scanner's envelope calls are, for each entry it removes and in queue
order, one timeout notification followed by one release of that entry's
envelope reference, and nothing else: no such call names an entry that
survives, and the only other call is the `mod_timer` at the end when the
timer is re-armed. -/
theorem scan_timeout_calls (now : Nat) (q : List kdbus_msg_list_entry) :
    (kdbus_conn_scan_timeout now q).calls.filter envelope_call
        = (q.filter (fun entry => !survives now entry)).flatMap
            (fun entry => [effect.msg_send_timeout entry.kmsg, effect.kmsg_unref entry.kmsg])
      ∧ (kdbus_conn_scan_timeout now q).calls
          = (q.filter (fun entry => !survives now entry)).flatMap
              (fun entry => [effect.msg_send_timeout entry.kmsg, effect.kmsg_unref entry.kmsg])
            ++ (if (kdbus_conn_scan_timeout now q).armed then
                  [effect.mod_timer (kdbus_conn_scan_timeout now q).deadline
                    ((((kdbus_conn_scan_timeout now q).deadline - now) / 1000) % 2 ^ 32)]
                else [])
      ∧ ((kdbus_conn_scan_timeout now q).calls.filter envelope_call).length
          = 2 * (q.length - (kdbus_conn_scan_timeout now q).msg_list.length)
      ∧ (∀ entry ∈ (kdbus_conn_scan_timeout now q).msg_list,
          effect.msg_send_timeout entry.kmsg ∉ (kdbus_conn_scan_timeout now q).calls
            ∧ effect.kmsg_unref entry.kmsg ∉ (kdbus_conn_scan_timeout now q).calls) := by
  have hcalls := scan_timeout_calls_eq now q
  have hexp : (fun entry : kdbus_msg_list_entry =>
      [effect.msg_send_timeout entry.kmsg, effect.kmsg_unref entry.kmsg]) = expiry_calls := rfl
  have hfilter := scan_envelope_calls now q
  rw [hexp]
  refine ⟨hfilter, hcalls, ?_, ?_⟩
  · rw [hfilter, expiry_calls_length, filter_not_length, scan_timeout_msg_list]
  · intro entry hs
    rw [scan_timeout_msg_list, List.mem_filter] at hs
    have hnot : ∀ c, c ∈ (kdbus_conn_scan_timeout now q).calls → envelope_call c = true →
        ∃ gone ∈ q, survives now gone = false ∧ c ∈ expiry_calls gone := by
      intro c hc he
      have : c ∈ (kdbus_conn_scan_timeout now q).calls.filter envelope_call :=
        List.mem_filter.mpr ⟨hc, he⟩
      rw [hfilter, List.mem_flatMap] at this
      obtain ⟨gone, hg, hcg⟩ := this
      rw [List.mem_filter] at hg
      exact ⟨gone, hg.1, by simpa using hg.2, hcg⟩
    have hsame : ∀ gone : kdbus_msg_list_entry, survives now gone = false →
        gone.kmsg ≠ entry.kmsg := by
      intro gone hg heq
      have : survives now gone = survives now entry := by simp [survives, heq]
      rw [hg, hs.2] at this
      cases this
    constructor
    · intro hc
      obtain ⟨gone, _, hg, hcg⟩ := hnot _ hc rfl
      simp [expiry_calls] at hcg
      exact hsame gone hg hcg.symm
    · intro hc
      obtain ⟨gone, _, hg, hcg⟩ := hnot _ hc rfl
      simp [expiry_calls] at hcg
      exact hsame gone hg hcg.symm

theorem scan_loop_after_scan (t₁ t₂ : Nat) (h : t₁ ≤ t₂) (q : List kdbus_msg_list_entry)
    (dl : Nat) :
    (scan_loop t₂ (q.filter (survives t₁)) dl).msg_list = (scan_loop t₂ q dl).msg_list
      ∧ (scan_loop t₂ (q.filter (survives t₁)) dl).deadline = (scan_loop t₂ q dl).deadline := by
  induction q generalizing dl with
  | nil => exact ⟨rfl, rfl⟩
  | cons entry rest ih =>
    by_cases h0 : entry.kmsg.deadline = 0
    · have hs : survives t₁ entry = true := by simp [survives, h0]
      rw [List.filter_cons_of_pos hs]
      simp only [scan_loop, h0, ↓reduceIte]
      exact ⟨by rw [(ih dl).1], (ih dl).2⟩
    · by_cases h1 : entry.kmsg.deadline ≤ t₁
      · have hs : ¬ survives t₁ entry = true := by simp [survives, h0, Nat.not_lt.mpr h1]
        have h2 : entry.kmsg.deadline ≤ t₂ := Nat.le_trans h1 h
        rw [List.filter_cons_of_neg hs]
        simp only [scan_loop, h0, h2, ↓reduceIte]
        exact ih dl
      · have hs : survives t₁ entry = true := by
          simp [survives, Nat.lt_of_not_le h1]
        rw [List.filter_cons_of_pos hs]
        by_cases h2 : entry.kmsg.deadline ≤ t₂
        · simp only [scan_loop, h0, h2, ↓reduceIte]
          exact ih dl
        · by_cases h3 : entry.kmsg.deadline < dl
          · simp only [scan_loop, h0, h2, h3, ↓reduceIte]
            exact ⟨by rw [(ih _).1], (ih _).2⟩
          · simp only [scan_loop, h0, h2, h3, ↓reduceIte]
            exact ⟨by rw [(ih dl).1], (ih dl).2⟩

theorem scan_timeout_after_scan (t₁ t₂ : Nat) (h : t₁ ≤ t₂) (q : List kdbus_msg_list_entry) :
    (kdbus_conn_scan_timeout t₂ (kdbus_conn_scan_timeout t₁ q).msg_list).msg_list
        = (kdbus_conn_scan_timeout t₂ q).msg_list
      ∧ (kdbus_conn_scan_timeout t₂ (kdbus_conn_scan_timeout t₁ q).msg_list).deadline
        = (kdbus_conn_scan_timeout t₂ q).deadline
      ∧ (kdbus_conn_scan_timeout t₂ (kdbus_conn_scan_timeout t₁ q).msg_list).armed
        = (kdbus_conn_scan_timeout t₂ q).armed := by
  have hl := scan_loop_after_scan t₁ t₂ h q U64_MAX
  rw [scan_timeout_msg_list t₁ q]
  unfold kdbus_conn_scan_timeout
  simp only [hl.1, hl.2]
  split <;> exact ⟨rfl, rfl, rfl⟩

/-- C19: for times `t₁ ≤ t₂`, a scan at `t₁` followed by a scan at `t₂` leaves the queue,
the armed-or-not decision, the wake time and the `mod_timer` call of a
single scan at `t₂`; a second scan at the same time removes nothing, makes
no notification and no envelope release, and decides the timer as the
first did. -/
theorem scan_twice (t₁ t₂ : Nat) (q : List kdbus_msg_list_entry) (h : t₁ ≤ t₂) :
    (kdbus_conn_scan_timeout t₂ (kdbus_conn_scan_timeout t₁ q).msg_list).msg_list
        = (kdbus_conn_scan_timeout t₂ q).msg_list
      ∧ (kdbus_conn_scan_timeout t₂ (kdbus_conn_scan_timeout t₁ q).msg_list).armed
        = (kdbus_conn_scan_timeout t₂ q).armed
      ∧ (kdbus_conn_scan_timeout t₂ (kdbus_conn_scan_timeout t₁ q).msg_list).deadline
        = (kdbus_conn_scan_timeout t₂ q).deadline
      ∧ (kdbus_conn_scan_timeout t₂ (kdbus_conn_scan_timeout t₁ q).msg_list).calls.filter
            (fun c => !envelope_call c)
        = (kdbus_conn_scan_timeout t₂ q).calls.filter (fun c => !envelope_call c)
      ∧ (kdbus_conn_scan_timeout t₁ (kdbus_conn_scan_timeout t₁ q).msg_list).msg_list
        = (kdbus_conn_scan_timeout t₁ q).msg_list
      ∧ (kdbus_conn_scan_timeout t₁ (kdbus_conn_scan_timeout t₁ q).msg_list).calls.filter
            envelope_call = []
      ∧ (kdbus_conn_scan_timeout t₁ (kdbus_conn_scan_timeout t₁ q).msg_list).armed
        = (kdbus_conn_scan_timeout t₁ q).armed
      ∧ (kdbus_conn_scan_timeout t₁ (kdbus_conn_scan_timeout t₁ q).msg_list).deadline
        = (kdbus_conn_scan_timeout t₁ q).deadline := by
  have h12 := scan_timeout_after_scan t₁ t₂ h q
  have h11 := scan_timeout_after_scan t₁ t₁ (Nat.le_refl _) q
  refine ⟨h12.1, h12.2.2, h12.2.1, ?_, h11.1, ?_, h11.2.2, h11.2.1⟩
  · rw [scan_timer_calls, scan_timer_calls, h12.2.1, h12.2.2]
  · rw [scan_envelope_calls, scan_timeout_msg_list]
    have hnone : ((q.filter (survives t₁)).filter (fun entry => !survives t₁ entry)) = [] := by
      rw [List.filter_filter]
      simp
    rw [hnone]
    rfl

theorem scan_twice_witness :
    (5 : Nat) ≤ 10
      ∧ (kdbus_conn_scan_timeout 10
            (kdbus_conn_scan_timeout 5 [⟨⟨1, 3⟩⟩, ⟨⟨2, 0⟩⟩, ⟨⟨3, 8⟩⟩, ⟨⟨4, 9000⟩⟩]).msg_list).msg_list
          = (kdbus_conn_scan_timeout 10 [⟨⟨1, 3⟩⟩, ⟨⟨2, 0⟩⟩, ⟨⟨3, 8⟩⟩, ⟨⟨4, 9000⟩⟩]).msg_list
      ∧ (kdbus_conn_scan_timeout 10
            (kdbus_conn_scan_timeout 5 [⟨⟨1, 3⟩⟩, ⟨⟨2, 0⟩⟩, ⟨⟨3, 8⟩⟩, ⟨⟨4, 9000⟩⟩]).msg_list).armed
          = (kdbus_conn_scan_timeout 10 [⟨⟨1, 3⟩⟩, ⟨⟨2, 0⟩⟩, ⟨⟨3, 8⟩⟩, ⟨⟨4, 9000⟩⟩]).armed :=
  ⟨by decide,
    (scan_twice 5 10 [⟨⟨1, 3⟩⟩, ⟨⟨2, 0⟩⟩, ⟨⟨3, 8⟩⟩, ⟨⟨4, 9000⟩⟩] (by decide)).1,
    (scan_twice 5 10 [⟨⟨1, 3⟩⟩, ⟨⟨2, 0⟩⟩, ⟨⟨3, 8⟩⟩, ⟨⟨4, 9000⟩⟩] (by decide)).2.1⟩

/-- C15 (amended): for a deadline `d` with `0 < d < 2 ^ 64 - 1` and times `t₁ < d ≤ t₂`, on a queue
of one entry with deadline `d` and one entry without deadline, in either
order: the scan at `t₁` removes nothing, makes no notification and re-arms
the timer for wake time `d`, handing on the delay `(d - t₁) / 1000`
microseconds as a 32-bit value; the following scan at `t₂` removes
exactly the deadlined entry, with one timeout notification and one
envelope release, keeps the other entry and does not arm the timer. -/
theorem scan_scenario (d t₁ t₂ : Nat) (a b : Ptr) (hd : 0 < d) (hmax : d < 2 ^ 64 - 1)
    (h₁ : t₁ < d) (h₂ : d ≤ t₂) :
    kdbus_conn_scan_timeout t₁ [⟨⟨a, d⟩⟩, ⟨⟨b, 0⟩⟩]
        = ⟨[⟨⟨a, d⟩⟩, ⟨⟨b, 0⟩⟩], d, true, [effect.mod_timer d (((d - t₁) / 1000) % 2 ^ 32)]⟩
      ∧ kdbus_conn_scan_timeout t₂ (kdbus_conn_scan_timeout t₁ [⟨⟨a, d⟩⟩, ⟨⟨b, 0⟩⟩]).msg_list
        = ⟨[⟨⟨b, 0⟩⟩], 2 ^ 64 - 1, false,
            [effect.msg_send_timeout ⟨a, d⟩, effect.kmsg_unref ⟨a, d⟩]⟩
      ∧ kdbus_conn_scan_timeout t₁ [⟨⟨b, 0⟩⟩, ⟨⟨a, d⟩⟩]
        = ⟨[⟨⟨b, 0⟩⟩, ⟨⟨a, d⟩⟩], d, true, [effect.mod_timer d (((d - t₁) / 1000) % 2 ^ 32)]⟩
      ∧ kdbus_conn_scan_timeout t₂ (kdbus_conn_scan_timeout t₁ [⟨⟨b, 0⟩⟩, ⟨⟨a, d⟩⟩]).msg_list
        = ⟨[⟨⟨b, 0⟩⟩], 2 ^ 64 - 1, false,
            [effect.msg_send_timeout ⟨a, d⟩, effect.kmsg_unref ⟨a, d⟩]⟩
      ∧ ((d - t₁) / 1000 < 2 ^ 32 →
          (kdbus_conn_scan_timeout t₁ [⟨⟨a, d⟩⟩, ⟨⟨b, 0⟩⟩]).calls
            = [effect.mod_timer d ((d - t₁) / 1000)]) := by
  have h0 : d ≠ 0 := by omega
  have h3 : ¬ d ≤ t₁ := by omega
  have h4 : d < U64_MAX := hmax
  have h5 : d ≠ U64_MAX := by omega
  have hU : U64_MAX = 2 ^ 64 - 1 := rfl
  have e₁ : kdbus_conn_scan_timeout t₁ [⟨⟨a, d⟩⟩, ⟨⟨b, 0⟩⟩]
      = ⟨[⟨⟨a, d⟩⟩, ⟨⟨b, 0⟩⟩], d, true, [effect.mod_timer d (((d - t₁) / 1000) % 2 ^ 32)]⟩ := by
    simp [kdbus_conn_scan_timeout, scan_loop, h0, h3, h4, h5]
  have e₂ : kdbus_conn_scan_timeout t₁ [⟨⟨b, 0⟩⟩, ⟨⟨a, d⟩⟩]
      = ⟨[⟨⟨b, 0⟩⟩, ⟨⟨a, d⟩⟩], d, true, [effect.mod_timer d (((d - t₁) / 1000) % 2 ^ 32)]⟩ := by
    simp [kdbus_conn_scan_timeout, scan_loop, h0, h3, h4, h5]
  refine ⟨e₁, ?_, e₂, ?_, ?_⟩
  · rw [e₁]
    simp [kdbus_conn_scan_timeout, scan_loop, h0, h₂, hU]
  · rw [e₂]
    simp [kdbus_conn_scan_timeout, scan_loop, h0, h₂, hU]
  · intro hfit
    rw [e₁]
    simp only [Nat.mod_eq_of_lt hfit]

theorem scan_scenario_witness :
    (0 : Nat) < 100 ∧ (100 : Nat) < 2 ^ 64 - 1 ∧ (50 : Nat) < 100 ∧ (100 : Nat) ≤ 150
      ∧ kdbus_conn_scan_timeout 50 [⟨⟨1, 100⟩⟩, ⟨⟨2, 0⟩⟩]
        = ⟨[⟨⟨1, 100⟩⟩, ⟨⟨2, 0⟩⟩], 100, true, [effect.mod_timer 100 (((100 - 50) / 1000) % 2 ^ 32)]⟩
      ∧ kdbus_conn_scan_timeout 150 (kdbus_conn_scan_timeout 50 [⟨⟨1, 100⟩⟩, ⟨⟨2, 0⟩⟩]).msg_list
        = ⟨[⟨⟨2, 0⟩⟩], 2 ^ 64 - 1, false,
            [effect.msg_send_timeout ⟨1, 100⟩, effect.kmsg_unref ⟨1, 100⟩]⟩ :=
  ⟨by decide, by decide, by decide, by decide,
    (scan_scenario 100 50 150 1 2 (by decide) (by decide) (by decide) (by decide)).1,
    (scan_scenario 100 50 150 1 2 (by decide) (by decide) (by decide) (by decide)).2.1⟩

/-- C15 (as stated) fails: with the deadline `d = 2 ^ 64 - 1` and `t₁ = 0 < d ≤ t₂ = 2 ^ 64 - 1`, the
scan at `t₁` keeps both entries and does not arm the timer; and with
`d = 4294967296000`, `t₁ = 0`, the scan at `t₁` arms the timer with the
delay 0, not `d - t₁`. -/
theorem scan_scenario_max_deadline :
    (0 : Nat) < 2 ^ 64 - 1 ∧ (0 : Nat) < 2 ^ 64 - 1 ∧ (2 ^ 64 - 1 : Nat) ≤ 2 ^ 64 - 1
      ∧ (kdbus_conn_scan_timeout 0 [⟨⟨1, 2 ^ 64 - 1⟩⟩, ⟨⟨2, 0⟩⟩]).msg_list
          = [⟨⟨1, 2 ^ 64 - 1⟩⟩, ⟨⟨2, 0⟩⟩]
      ∧ (kdbus_conn_scan_timeout 0 [⟨⟨1, 2 ^ 64 - 1⟩⟩, ⟨⟨2, 0⟩⟩]).armed = false
      ∧ (kdbus_conn_scan_timeout 0 [⟨⟨1, 2 ^ 64 - 1⟩⟩, ⟨⟨2, 0⟩⟩]).calls = []
      ∧ (kdbus_conn_scan_timeout 0 [⟨⟨1, 4294967296000⟩⟩, ⟨⟨2, 0⟩⟩]).calls
          = [effect.mod_timer 4294967296000 0] := by
  refine ⟨by decide, by decide, by decide, by decide, by decide, by decide, by decide⟩

/-! ## Readiness and reserved commands -/

/-- C11: on a connection that is not of endpoint type `kdbus_conn_poll` returns the error
and hang-up bits and neither a readable nor a writable bit; on an endpoint
connection the mask has no error bit, and the readable bits `POLLIN` and
`POLLRDNORM` are set exactly when the queue is not empty. -/
theorem poll_mask (other ep : kdbus_conn) (ho : other.type ≠ kdbus_conn_type.EP)
    (he : ep.type = kdbus_conn_type.EP) :
    kdbus_conn_poll other = POLLERR ||| POLLHUP
      ∧ kdbus_conn_poll other &&& POLLERR ≠ 0 ∧ kdbus_conn_poll other &&& POLLHUP ≠ 0
      ∧ kdbus_conn_poll other &&& POLLIN = 0 ∧ kdbus_conn_poll other &&& POLLRDNORM = 0
      ∧ kdbus_conn_poll other &&& POLLOUT = 0 ∧ kdbus_conn_poll other &&& POLLWRNORM = 0
      ∧ kdbus_conn_poll ep &&& POLLERR = 0
      ∧ (kdbus_conn_poll ep &&& POLLIN ≠ 0 ↔ ep.msg_list ≠ [])
      ∧ (kdbus_conn_poll ep &&& POLLRDNORM ≠ 0 ↔ ep.msg_list ≠ [])
      ∧ kdbus_conn_poll ep = if ep.msg_list ≠ [] then POLLIN ||| POLLRDNORM else 0 := by
  have h₁ : kdbus_conn_poll other = POLLERR ||| POLLHUP := by
    simp [kdbus_conn_poll, ho]
  have h₂ : kdbus_conn_poll ep = if ep.msg_list ≠ [] then POLLIN ||| POLLRDNORM else 0 := by
    simp [kdbus_conn_poll, he]
  rw [h₁, h₂]
  refine ⟨rfl, by decide, by decide, by decide, by decide, by decide, by decide, ?_, ?_, ?_, rfl⟩
  · split <;> decide
  · by_cases hq : ep.msg_list = []
    · simp [hq]
    · simp only [ne_eq, hq, not_false_eq_true, ↓reduceIte, iff_true]
      decide
  · by_cases hq : ep.msg_list = []
    · simp [hq]
    · simp only [ne_eq, hq, not_false_eq_true, ↓reduceIte, iff_true]
      decide

theorem poll_mask_witness :
    (sample_conn kdbus_conn_type.CONTROL false).type ≠ kdbus_conn_type.EP
      ∧ (⟨kdbus_conn_type.EP, some 0, some 0, none, none, 5, true, false, [⟨⟨1, 0⟩⟩]⟩
          : kdbus_conn).type = kdbus_conn_type.EP
      ∧ kdbus_conn_poll (sample_conn kdbus_conn_type.CONTROL false) = POLLERR ||| POLLHUP
      ∧ kdbus_conn_poll ⟨kdbus_conn_type.EP, some 0, some 0, none, none, 5, true, false,
          [⟨⟨1, 0⟩⟩]⟩ = POLLIN ||| POLLRDNORM :=
  have w := poll_mask (sample_conn kdbus_conn_type.CONTROL false)
    ⟨kdbus_conn_type.EP, some 0, some 0, none, none, 5, true, false, [⟨⟨1, 0⟩⟩]⟩
    (by decide) rfl
  ⟨by decide, rfl, w.1, w.2.2.2.2.2.2.2.2.2.2⟩

/-- C14: the reserved commands return not-implemented and leave the connection and the
user memory as they were, whatever the payload and the connection's other
fields: bus-policy-set on a control connection, and endpoint-policy-set,
match-add, match-remove and monitor on an endpoint connection. -/
theorem reserved_commands (h : kdbus_h) (x : ext_calls) (argp : user_mem) (ctl ep : kdbus_conn)
    (hc : ctl.type = kdbus_conn_type.CONTROL) (he : ep.type = kdbus_conn_type.EP) :
    kdbus_conn_ioctl h x ctl kdbus_cmd.BUS_POLICY_SET argp = ⟨-ENOSYS, ctl, argp⟩
      ∧ kdbus_conn_ioctl h x ep kdbus_cmd.EP_POLICY_SET argp = ⟨-ENOSYS, ep, argp⟩
      ∧ kdbus_conn_ioctl h x ep kdbus_cmd.MATCH_ADD argp = ⟨-ENOSYS, ep, argp⟩
      ∧ kdbus_conn_ioctl h x ep kdbus_cmd.MATCH_REMOVE argp = ⟨-ENOSYS, ep, argp⟩
      ∧ kdbus_conn_ioctl h x ep kdbus_cmd.MONITOR argp = ⟨-ENOSYS, ep, argp⟩ := by
  refine ⟨?_, ?_, ?_, ?_, ?_⟩
  · simp [kdbus_conn_ioctl, hc, kdbus_conn_ioctl_control]
  · simp [kdbus_conn_ioctl, he, kdbus_conn_ioctl_ep]
  · simp [kdbus_conn_ioctl, he, kdbus_conn_ioctl_ep]
  · simp [kdbus_conn_ioctl, he, kdbus_conn_ioctl_ep]
  · simp [kdbus_conn_ioctl, he, kdbus_conn_ioctl_ep]

theorem reserved_commands_witness :
    (sample_conn kdbus_conn_type.CONTROL false).type = kdbus_conn_type.CONTROL
      ∧ (sample_conn kdbus_conn_type.EP true).type = kdbus_conn_type.EP
      ∧ (kdbus_conn_ioctl sample_h ext_ok (sample_conn kdbus_conn_type.CONTROL false)
          kdbus_cmd.BUS_POLICY_SET (sample_argp 0 0)).ret = -ENOSYS
      ∧ (kdbus_conn_ioctl sample_h ext_ok (sample_conn kdbus_conn_type.EP true)
          kdbus_cmd.MONITOR (sample_argp 0 0)).ret = -ENOSYS :=
  have w := reserved_commands sample_h ext_ok (sample_argp 0 0)
    (sample_conn kdbus_conn_type.CONTROL false) (sample_conn kdbus_conn_type.EP true) rfl rfl
  ⟨rfl, rfl, congrArg ioctl_result.ret w.1, congrArg ioctl_result.ret w.2.2.2.2⟩

/-! ## Open and release: references and registries -/

theorem open_success (s : State) (env : open_env) (major minor : Nat)
    (hr : (kdbus_conn_open s env major minor).ret = 0) :
    ∃ p nsp, env.kzalloc = some p ∧ idr_find s.kdbus_ns_major_idr major = some nsp
      ∧ (s.ns nsp).disconnected = false
      ∧ ((minor = 0 ∧ kdbus_conn_open s env major minor
            = ⟨0, some p, set_conn (kdbus_ns_ref s nsp) p
                (some ⟨kdbus_conn_type.CONTROL, some nsp, none, none, none, 0, false, false, []⟩)⟩)
        ∨ (minor ≠ 0 ∧ ∃ epp, idr_find (s.ns nsp).idr minor = some epp
            ∧ (s.ep epp).disconnected = false
            ∧ kdbus_conn_open s env major minor
              = ⟨0, some p,
                  { kdbus_ns_ref s nsp with
                    ep := Function.update s.ep epp
                      { s.ep epp with
                        kref := (s.ep epp).kref + 1
                        connection_list := (s.ep epp).connection_list ++ [p] }
                    bus := Function.update s.bus (s.ep epp).bus
                      { s.bus (s.ep epp).bus with
                        conn_id_next := ((s.bus (s.ep epp).bus).conn_id_next + 1) % 2 ^ 64
                        conn_idr := (idr_alloc (s.bus (s.ep epp).bus).conn_idr p
                          (u64_to_int (s.bus (s.ep epp).bus).conn_id_next) env.idr_mem_ok).2 }
                    conn := Function.update s.conn p
                      (some ⟨kdbus_conn_type.EP, some nsp, some epp, none, none,
                        (s.bus (s.ep epp).bus).conn_id_next, false, false, []⟩) }⟩)) := by
  cases hk : env.kzalloc with
  | none => simp [kdbus_conn_open, hk, ENOMEM] at hr
  | some p =>
    cases hns : idr_find s.kdbus_ns_major_idr major with
    | none => simp [kdbus_conn_open, hk, hns, ENOENT] at hr
    | some nsp =>
      by_cases hnd : (s.ns nsp).disconnected = true
      · simp [kdbus_conn_open, hk, hns, hnd, ENOENT] at hr
      · have hnd' : (s.ns nsp).disconnected = false := by simpa using hnd
        refine ⟨p, nsp, rfl, rfl, hnd', ?_⟩
        by_cases hm : minor = 0
        · left
          refine ⟨hm, ?_⟩
          simp [kdbus_conn_open, hk, hns, hnd', hm, conn_zero]
        · right
          refine ⟨hm, ?_⟩
          have ho : kdbus_conn_open s env major minor
              = kdbus_conn_open_ep (kdbus_ns_ref s nsp) env p nsp minor := by
            simp [kdbus_conn_open, hk, hns, hnd', hm]
          rw [ho] at hr ⊢
          cases hl : idr_find ((kdbus_ns_ref s nsp).ns nsp).idr minor with
          | none => simp [kdbus_conn_open_ep, hl, ENOENT] at hr
          | some epp =>
            by_cases hd : ((kdbus_ns_ref s nsp).ep epp).disconnected = true
            · simp [kdbus_conn_open_ep, hl, hd, ENOENT] at hr
            · have hd' : ((kdbus_ns_ref s nsp).ep epp).disconnected = false := by simpa using hd
              have hl' : idr_find (s.ns nsp).idr minor = some epp := by
                simpa [kdbus_ns_ref] using hl
              refine ⟨epp, hl', hd', ?_⟩
              rw [open_ep_eq _ _ _ _ _ _ hl hd'] at hr ⊢
              split at hr
              · simp [EEXIST] at hr
              · rename_i hcond
                rw [if_neg hcond]
                rfl

theorem release_refs (s : State) (p : Ptr) (c : kdbus_conn) (nsp : Ptr)
    (hc : s.conn p = some c) (hn : c.ns = some nsp)
    (hb : c.type = kdbus_conn_type.BUS_OWNER → c.bus_owner ≠ none)
    (he : c.type = kdbus_conn_type.EP → c.ep ≠ none) :
    ∃ r, kdbus_conn_release s p = some r ∧ r.ret = 0
      ∧ r.state.ns = Function.update s.ns nsp { s.ns nsp with kref := (s.ns nsp).kref - 1 }
      ∧ ∀ e, (r.state.ep e).kref
          = (s.ep e).kref - (if c.type = kdbus_conn_type.EP ∧ c.ep = some e then 1 else 0) := by
  unfold kdbus_conn_release
  simp only [hc, hn]
  cases ht : c.type with
  | UNDEFINED => exact ⟨_, rfl, rfl, rfl, fun e => by simp [set_conn, kdbus_ns_unref]⟩
  | CONTROL => exact ⟨_, rfl, rfl, rfl, fun e => by simp [set_conn, kdbus_ns_unref]⟩
  | NS_OWNER => exact ⟨_, rfl, rfl, rfl, fun e => by simp [set_conn, kdbus_ns_unref]⟩
  | BUS_OWNER =>
    cases hbo : c.bus_owner with
    | none => exact absurd hbo (hb ht)
    | some b => exact ⟨_, rfl, rfl, rfl, fun e => by
        simp [set_conn, kdbus_ns_unref, kdbus_bus_unref, kdbus_bus_disconnect]⟩
  | EP =>
    cases hep : c.ep with
    | none => exact absurd hep (he ht)
    | some ep =>
      refine ⟨_, rfl, rfl, rfl, ?_⟩
      intro e
      by_cases hee : e = ep
      · subst hee
        simp [set_conn, kdbus_ns_unref, set_ep, kdbus_ep_unref]
      · have hne : ep ≠ e := fun h => hee h.symm
        simp [set_conn, kdbus_ns_unref, set_ep, kdbus_ep_unref, Function.update_noteq hee, hne]

/-- C17: `kdbus_conn_release` of a connection of any type returns success and lowers the
reference count of the connection's namespace, and of no other namespace,
by exactly one; and a successful `kdbus_conn_open` of a control or an
endpoint device followed at once by `kdbus_conn_release` leaves the
reference count of every namespace and of every endpoint at its value
before the open. -/
theorem open_release_refs (s₁ : State) (p₁ : Ptr) (c : kdbus_conn) (nsp : Ptr)
    (s : State) (env : open_env) (major minor : Nat)
    (hc : s₁.conn p₁ = some c) (hn : c.ns = some nsp)
    (hb : c.type = kdbus_conn_type.BUS_OWNER → c.bus_owner ≠ none)
    (he : c.type = kdbus_conn_type.EP → c.ep ≠ none)
    (hr : (kdbus_conn_open s env major minor).ret = 0) :
    (∃ r, kdbus_conn_release s₁ p₁ = some r ∧ r.ret = 0
        ∧ (r.state.ns nsp).kref = (s₁.ns nsp).kref - 1
        ∧ ∀ n, n ≠ nsp → r.state.ns n = s₁.ns n)
      ∧ ∃ p r, (kdbus_conn_open s env major minor).private_data = some p
          ∧ kdbus_conn_release (kdbus_conn_open s env major minor).state p = some r
          ∧ r.ret = 0
          ∧ (∀ n, (r.state.ns n).kref = (s.ns n).kref)
          ∧ ∀ e, (r.state.ep e).kref = (s.ep e).kref := by
  constructor
  · obtain ⟨r, hrel, hret, hns, _⟩ := release_refs s₁ p₁ c nsp hc hn hb he
    refine ⟨r, hrel, hret, ?_, ?_⟩
    · rw [hns]; simp
    · intro n hne
      rw [hns, Function.update_noteq hne]
  · obtain ⟨p, ns₀, _, _, _, hcase⟩ := open_success s env major minor hr
    rcases hcase with ⟨_, ho⟩ | ⟨_, epp, _, _, ho⟩
    · rw [ho]
      obtain ⟨r, hrel, hret, hns, hep⟩ := release_refs
        (set_conn (kdbus_ns_ref s ns₀) p
          (some ⟨kdbus_conn_type.CONTROL, some ns₀, none, none, none, 0, false, false, []⟩)) p
        ⟨kdbus_conn_type.CONTROL, some ns₀, none, none, none, 0, false, false, []⟩ ns₀
        (by simp [set_conn]) rfl (by simp) (by simp)
      refine ⟨p, r, rfl, hrel, hret, ?_, ?_⟩
      · intro n
        rw [hns]
        by_cases hnn : n = ns₀
        · subst hnn; simp [set_conn, kdbus_ns_ref]
        · simp [set_conn, kdbus_ns_ref, Function.update_noteq hnn]
      · intro e
        rw [hep e]
        simp [set_conn, kdbus_ns_ref]
    · obtain ⟨r, hrel, hret, hns, hep⟩ := release_refs
        (kdbus_conn_open s env major minor).state p
        ⟨kdbus_conn_type.EP, some ns₀, some epp, none, none,
          (s.bus (s.ep epp).bus).conn_id_next, false, false, []⟩ ns₀
        (by rw [ho]; simp) rfl (by simp) (by simp)
      refine ⟨p, r, by rw [ho], hrel, hret, ?_, ?_⟩
      · intro n
        rw [hns, ho]
        by_cases hnn : n = ns₀
        · subst hnn; simp [kdbus_ns_ref]
        · simp [kdbus_ns_ref, Function.update_noteq hnn]
      · intro e
        rw [hep e, ho]
        by_cases hee : e = epp
        · subst hee; simp
        · have hne : epp ≠ e := fun h => hee h.symm
          simp [Function.update_noteq hee, hne]

theorem open_release_refs_witness :
    (sample_open_state []).conn 7
        = some ⟨kdbus_conn_type.EP, some 0, some 0, none, none, 5, false, false, []⟩
      ∧ (kdbus_conn_open (sample_state false 5 []) ⟨some 7, true⟩ 1 1).ret = 0
      ∧ (∃ r, kdbus_conn_release (sample_open_state []) 7 = some r ∧ r.ret = 0
          ∧ (r.state.ns 0).kref = ((sample_open_state []).ns 0).kref - 1)
      ∧ ∃ p r, (kdbus_conn_open (sample_state false 5 []) ⟨some 7, true⟩ 1 1).private_data = some p
          ∧ kdbus_conn_release
              (kdbus_conn_open (sample_state false 5 []) ⟨some 7, true⟩ 1 1).state p = some r
          ∧ (r.state.ns 0).kref = ((sample_state false 5 []).ns 0).kref
          ∧ (r.state.ep 0).kref = ((sample_state false 5 []).ep 0).kref := by
  have w := open_release_refs (sample_open_state []) 7
    ⟨kdbus_conn_type.EP, some 0, some 0, none, none, 5, false, false, []⟩ 0
    (sample_state false 5 []) ⟨some 7, true⟩ 1 1 rfl rfl (by decide) (by decide) (by decide)
  obtain ⟨⟨r₁, h₁, h₂, h₃, _⟩, p, r₂, h₄, h₅, _, h₆, h₇⟩ := w
  exact ⟨rfl, by decide, ⟨r₁, h₁, h₂, h₃⟩, p, r₂, h₄, h₅, h₆ 0, h₇ 0⟩

theorem release_keeps_idr (s : State) (p : Ptr) (r : release_result)
    (hr : kdbus_conn_release s p = some r) (b : Ptr) :
    (r.state.bus b).conn_idr = (s.bus b).conn_idr := by
  unfold kdbus_conn_release at hr
  cases hc : s.conn p with
  | none => simp [hc] at hr
  | some c =>
    cases hn : c.ns with
    | none =>
      simp only [hc, hn] at hr
      split at hr <;> simp_all
    | some nsp =>
      simp only [hc, hn] at hr
      cases ht : c.type with
      | UNDEFINED => simp only [ht, Option.some.injEq] at hr; subst hr; rfl
      | CONTROL => simp only [ht, Option.some.injEq] at hr; subst hr; rfl
      | NS_OWNER => simp only [ht, Option.some.injEq] at hr; subst hr; rfl
      | BUS_OWNER =>
        cases hb : c.bus_owner with
        | none => simp [ht, hb] at hr
        | some bo =>
          simp only [ht, hb, Option.some.injEq] at hr
          subst hr
          by_cases hbb : b = bo
          · subst hbb
            simp [set_conn, kdbus_ns_unref, kdbus_bus_unref, kdbus_bus_disconnect]
          · simp [set_conn, kdbus_ns_unref, kdbus_bus_unref, kdbus_bus_disconnect,
              Function.update_noteq hbb]
      | EP =>
        cases he : c.ep with
        | none => simp [ht, he] at hr
        | some ep =>
          simp only [ht, he, Option.some.injEq] at hr
          subst hr
          rfl

/-- C12: an endpoint connection is opened on a bus with counter 5 and closed again: the
connection had id 5, its memory is freed, and the bus's id table still
maps id 5 to its address. -/
theorem release_leaves_id_entry :
    ((step (sample_state false 5 []) (file_op.dev_open ⟨some 7, true⟩ 1 1)).conn 7).map
        (fun c => (c.type, c.id)) = some (kdbus_conn_type.EP, 5)
      ∧ (run (sample_state false 5 [])
          [file_op.dev_open ⟨some 7, true⟩ 1 1, file_op.dev_release 7]).conn 7 = none
      ∧ idr_find ((run (sample_state false 5 [])
          [file_op.dev_open ⟨some 7, true⟩ 1 1, file_op.dev_release 7]).bus 0).conn_idr 5
          = some 7
      ∧ 7 ∉ ((run (sample_state false 5 [])
          [file_op.dev_open ⟨some 7, true⟩ 1 1, file_op.dev_release 7]).ep 0).connection_list := by
  refine ⟨by decide, by decide, by decide, by decide⟩

theorem open_endpoint_gone (s : State) (m : Bool) (major minor : Nat) (p nsp : Ptr)
    (hns : idr_find s.kdbus_ns_major_idr major = some nsp)
    (hnd : (s.ns nsp).disconnected = false) (hm : minor ≠ 0)
    (hep : ∀ epp, idr_find (s.ns nsp).idr minor = some epp → (s.ep epp).disconnected = true)
    (hfree : s.conn p = none) :
    kdbus_conn_open s ⟨some p, m⟩ major minor = ⟨-ENOENT, some p, kdbus_ns_ref s nsp⟩ := by
  have ho : kdbus_conn_open s ⟨some p, m⟩ major minor
      = kdbus_conn_open_ep (kdbus_ns_ref s nsp) ⟨some p, m⟩ p nsp minor := by
    simp [kdbus_conn_open, hns, hnd, hm]
  have hfree' : (kdbus_ns_ref s nsp).conn p = none := hfree
  have hidr : ((kdbus_ns_ref s nsp).ns nsp).idr = (s.ns nsp).idr := by simp [kdbus_ns_ref]
  rw [ho]
  unfold kdbus_conn_open_ep
  rw [hidr]
  cases hl : idr_find (s.ns nsp).idr minor with
  | none => simp [set_conn_none_of_free _ p hfree']
  | some epp =>
    have hd : ((kdbus_ns_ref s nsp).ep epp).disconnected = true := hep epp hl
    simp [hd, set_conn_none_of_free _ p hfree']

/-- C16: the namespace at major 1 resolves and minor 2 resolves to no endpoint, or minor 1
to an endpoint marked disconnected: `kdbus_conn_open` returns not-found
and frees the connection, and the namespace's reference count, 1 before
the call, is 2 after it. -/
theorem open_endpoint_gone_leaks_ns :
    idr_find (sample_state false 5 []).kdbus_ns_major_idr 1 = some 0
      ∧ idr_find ((sample_state false 5 []).ns 0).idr 2 = none
      ∧ (kdbus_conn_open (sample_state false 5 []) ⟨some 7, true⟩ 1 2).ret = -ENOENT
      ∧ (kdbus_conn_open (sample_state false 5 []) ⟨some 7, true⟩ 1 2).state.conn 7 = none
      ∧ ((sample_state false 5 []).ns 0).kref = 1
      ∧ ((kdbus_conn_open (sample_state false 5 []) ⟨some 7, true⟩ 1 2).state.ns 0).kref = 2
      ∧ (kdbus_conn_open { sample_state false 5 [] with ep := fun _ => ⟨1, true, 0, []⟩ }
          ⟨some 7, true⟩ 1 1).ret = -ENOENT
      ∧ ((kdbus_conn_open { sample_state false 5 [] with ep := fun _ => ⟨1, true, 0, []⟩ }
          ⟨some 7, true⟩ 1 1).state.ns 0).kref = 2 := by
  refine ⟨rfl, rfl, by decide, by decide, rfl, by decide, by decide, by decide⟩

theorem ioctl_keeps_refs (h : kdbus_h) (x : ext_calls) (c : kdbus_conn) (cmd : kdbus_cmd)
    (argp : user_mem) (hc : refs_match_type c) (hx : constructors_ok x) :
    refs_match_type (kdbus_conn_ioctl h x c cmd argp).conn := by
  obtain ⟨hep, hbo, hno⟩ := hc
  obtain ⟨hbus, hns⟩ := hx
  unfold kdbus_conn_ioctl
  cases ht : c.type with
  | UNDEFINED => simpa [refs_match_type, ht] using And.intro hep (And.intro hbo hno)
  | NS_OWNER => simpa [refs_match_type, ht] using And.intro hep (And.intro hbo hno)
  | BUS_OWNER => simpa [refs_match_type, ht] using And.intro hep (And.intro hbo hno)
  | CONTROL =>
    have h₁ : c.ep = none := by simpa [ht] using hep
    have h₂ : c.bus_owner = none := by simpa [ht] using hbo
    have h₃ : c.ns_owner = none := by simpa [ht] using hno
    unfold kdbus_conn_ioctl_control
    cases cmd <;> simp only <;> repeat' split
    all_goals solve
      | simp [refs_match_type, ht, h₁, h₂, h₃]
      | (have hb := hbus (by omega); simp [refs_match_type, h₁, h₃, hb])
      | (have hn := hns (by omega); simp [refs_match_type, h₁, h₂, hn])
  | EP =>
    have h₁ : c.ep ≠ none := by simpa [ht] using hep
    have h₂ : c.bus_owner = none := by simpa [ht] using hbo
    have h₃ : c.ns_owner = none := by simpa [ht] using hno
    unfold kdbus_conn_ioctl_ep
    cases cmd <;> simp only <;> repeat' split
    all_goals simp [refs_match_type, ht, h₁, h₂, h₃]

theorem run_ioctls_keeps_refs (h : kdbus_h) (calls : List ioctl_call) (c : kdbus_conn)
    (hc : refs_match_type c) (hx : ∀ call ∈ calls, constructors_ok call.x) :
    refs_match_type (run_ioctls h c calls) := by
  induction calls generalizing c with
  | nil => exact hc
  | cons call rest ih =>
    exact ih _ (ioctl_keeps_refs h call.x c call.cmd call.argp hc
        (hx call (List.mem_cons_self _ _)))
      (fun call' hm => hx call' (List.mem_cons_of_mem _ hm))

/-- C13: a successful `kdbus_conn_open` leaves a connection whose `ep`, `bus_owner` and
`ns_owner` references are non-null exactly for the type endpoint,
bus-owner and namespace-owner, and so is the connection after every
sequence of commands, given that the bus and namespace constructors hand
back a non-null object whenever they report success. -/
theorem refs_match_reachable (s : State) (env : open_env) (major minor : Nat) (h : kdbus_h)
    (calls : List ioctl_call)
    (hr : (kdbus_conn_open s env major minor).ret = 0)
    (hx : ∀ call ∈ calls, constructors_ok call.x) :
    ∃ p c, (kdbus_conn_open s env major minor).private_data = some p
      ∧ (kdbus_conn_open s env major minor).state.conn p = some c
      ∧ refs_match_type c
      ∧ refs_match_type (run_ioctls h c calls) := by
  obtain ⟨p, nsp, _, _, _, hcase⟩ := open_success s env major minor hr
  rcases hcase with ⟨_, ho⟩ | ⟨_, epp, _, _, ho⟩
  · have hc : refs_match_type
        ⟨kdbus_conn_type.CONTROL, some nsp, none, none, none, 0, false, false, []⟩ := by
      simp [refs_match_type]
    exact ⟨p, _, by rw [ho], by rw [ho]; simp [set_conn], hc,
      run_ioctls_keeps_refs h calls _ hc hx⟩
  · have hc : refs_match_type
        ⟨kdbus_conn_type.EP, some nsp, some epp, none, none,
          (s.bus (s.ep epp).bus).conn_id_next, false, false, []⟩ := by
      simp [refs_match_type]
    exact ⟨p, _, by rw [ho], by rw [ho]; simp, hc, run_ioctls_keeps_refs h calls _ hc hx⟩

theorem refs_match_reachable_witness :
    (kdbus_conn_open (sample_state false 5 []) ⟨some 7, true⟩ 1 0).ret = 0
      ∧ (∀ call ∈ [(⟨kdbus_cmd.BUS_MAKE, sample_argp 0 0, ext_ok⟩ : ioctl_call),
            ⟨kdbus_cmd.HELLO, sample_argp 0 0, ext_ok⟩], constructors_ok call.x)
      ∧ ∃ p c, (kdbus_conn_open (sample_state false 5 []) ⟨some 7, true⟩ 1 0).private_data = some p
          ∧ (kdbus_conn_open (sample_state false 5 []) ⟨some 7, true⟩ 1 0).state.conn p = some c
          ∧ refs_match_type c
          ∧ refs_match_type (run_ioctls sample_h c
              [⟨kdbus_cmd.BUS_MAKE, sample_argp 0 0, ext_ok⟩,
                ⟨kdbus_cmd.HELLO, sample_argp 0 0, ext_ok⟩]) := by
  have hx : ∀ call ∈ [(⟨kdbus_cmd.BUS_MAKE, sample_argp 0 0, ext_ok⟩ : ioctl_call),
      ⟨kdbus_cmd.HELLO, sample_argp 0 0, ext_ok⟩], constructors_ok call.x := by
    intro call hm
    simp only [List.mem_cons, List.mem_singleton, List.not_mem_nil, or_false] at hm
    rcases hm with rfl | rfl <;> simp [constructors_ok, ext_ok]
  exact ⟨by decide, hx,
    refs_match_reachable (sample_state false 5 []) ⟨some 7, true⟩ 1 0 sample_h _ (by decide) hx⟩

end Kdbus
